import Mathlib

/- Verification of the Lambert Azimuthal Equal-Area (LAEA) projection core
   (src/projections/laea.cpp) against its natural-language specification.

   The code is shallow-embedded over the exact reals: every `double` becomes
   a real number, the C math functions become their Mathlib counterparts, and
   the per-instance error side channel (proj_errno_set) becomes an explicit
   Bool returned next to the coordinate pair (true = the call signalled
   PROJ_ERR_COORD_TRANSFM_OUTSIDE_PROJECTION_DOMAIN).

   The authalic-latitude helper (pj_authalic_lat, pj_authalic_lat_inverse,
   pj_authalic_lat_q, pj_authalic_lat_compute_coeffs) is an external
   collaborator whose source is not part of this repository; it is embedded
   as an explicit function-valued parameter `AuthHelper` threaded through the
   ellipsoidal code paths, exactly where the C code calls it. -/

set_option linter.unusedVariables false

noncomputable section

namespace Laea

/-- EPS10 from laea.cpp line 27: `#define EPS10 1.e-10`. -/
def EPS10 : ℝ := 1e-10

/-- M_HALFPI (pi/2), from proj.h. -/
def M_HALFPI : ℝ := Real.pi / 2

/-- M_FORTPI (pi/4), from proj.h. -/
def M_FORTPI : ℝ := Real.pi / 4

/-- The aspect-mode enumeration, laea.cpp lines 8-10. -/
inductive Mode
  | N_POLE
  | S_POLE
  | EQUIT
  | OBLIQ
deriving DecidableEq

/-- Planar coordinate pair (PJ_XY). -/
@[ext]
structure PJ_XY where
  x : ℝ
  y : ℝ
deriving DecidableEq

/-- Geodetic coordinate pair (PJ_LP): longitude `lam`, latitude `phi`, radians. -/
@[ext]
structure PJ_LP where
  lam : ℝ
  phi : ℝ
deriving DecidableEq

/-- The per-instance state `struct pj_laea_data`, laea.cpp lines 13-24.
    `apa` (the owned coefficient sequence for the authalic-latitude inverse
    series) is modelled as an `Option Unit`: only its null/non-null status is
    observable in this embedding, the coefficients themselves being internal
    to the external helper. -/
structure pj_laea_data where
  sinb1 : ℝ
  cosb1 : ℝ
  xmf : ℝ
  ymf : ℝ
  mmf : ℝ
  qp : ℝ
  dd : ℝ
  rq : ℝ
  apa : Option Unit
  mode : Mode

/-- The fields of the surrounding `PJ` object that laea.cpp reads or writes:
    the center latitude `phi0`, squared eccentricity `es`, eccentricity `e`,
    and the opaque projection state `Q`. -/
structure PJ where
  phi0 : ℝ
  es : ℝ
  e : ℝ
  Q : pj_laea_data

/-- Modelled from the spec: the external Authalic-Latitude Helper
    (consumed, not reimplemented here).  `lat` is pj_authalic_lat
    (geodetic latitude to authalic latitude), `latInv` is
    pj_authalic_lat_inverse (inverse authalic latitude via series), and
    `q` is pj_authalic_lat_q as a function of sin(latitude) (the authalic
    "q" integral; the C call site passes sin(phi), with qp = q at the pole
    obtained from argument 1.0).  The redundant precomputed arguments of the
    C signatures (sinphi, cosphi, the coefficient array, the PJ pointer, qp)
    are determined by these and are dropped. -/
structure AuthHelper where
  lat : ℝ → ℝ
  latInv : ℝ → ℝ
  q : ℝ → ℝ

/-- C atan2(y, x), embedded as the argument of the complex number x + y*i
    (range (-pi, pi], atan2 0 0 = 0). -/
def atan2 (y x : ℝ) : ℝ := Complex.arg ⟨x, y⟩

/-- laea_e_forward, laea.cpp lines 29-90 (ellipsoidal forward transform).
    Returns the planar pair together with the error flag (true iff
    "outside projection domain" was signalled). -/
def laea_e_forward (H : AuthHelper) (lp : PJ_LP) (P : PJ) : PJ_XY × Bool :=
  let Q := P.Q
  let coslam := Real.cos lp.lam
  let sinlam := Real.sin lp.lam
  let xi := H.lat lp.phi
  let q := Real.sin xi * Q.qp
  let sinb := if Q.mode = Mode.OBLIQ ∨ Q.mode = Mode.EQUIT then Real.sin xi else 0
  let cosb := if Q.mode = Mode.OBLIQ ∨ Q.mode = Mode.EQUIT then Real.cos xi else 0
  let b :=
    match Q.mode with
    | Mode.OBLIQ => 1 + Q.sinb1 * sinb + Q.cosb1 * cosb * coslam
    | Mode.EQUIT => 1 + cosb * coslam
    | Mode.N_POLE => M_HALFPI + lp.phi
    | Mode.S_POLE => lp.phi - M_HALFPI
  let q1 :=
    match Q.mode with
    | Mode.N_POLE => Q.qp - q
    | Mode.S_POLE => Q.qp + q
    | _ => q
  if |b| < EPS10 then (⟨0, 0⟩, true)
  else
    match Q.mode with
    | Mode.OBLIQ =>
      let b1 := Real.sqrt (2 / b)
      (⟨Q.xmf * b1 * cosb * sinlam,
        Q.ymf * b1 * (Q.cosb1 * sinb - Q.sinb1 * cosb * coslam)⟩, false)
    | Mode.EQUIT =>
      let b1 := Real.sqrt (2 / (1 + cosb * coslam))
      (⟨Q.xmf * b1 * cosb * sinlam, b1 * sinb * Q.ymf⟩, false)
    | _ =>
      if 1e-15 ≤ q1 then
        let b1 := Real.sqrt q1
        (⟨b1 * sinlam, coslam * (if Q.mode = Mode.S_POLE then b1 else -b1)⟩, false)
      else (⟨0, 0⟩, false)

/-- The shared polar tail of laea_s_forward, laea.cpp lines 117-129.
    The N_POLE case negates coslam and falls through into the S_POLE body
    (PROJ_FALLTHROUGH); `coslam` here is the possibly-negated value. -/
def laea_s_forward_polar (mode : Mode) (coslam : ℝ) (lp : PJ_LP) (phi0 : ℝ) :
    PJ_XY × Bool :=
  if |lp.phi + phi0| < EPS10 then (⟨0, 0⟩, true)
  else
    let t := M_FORTPI - lp.phi * 0.5
    let y1 := 2 * (if mode = Mode.S_POLE then Real.cos t else Real.sin t)
    (⟨y1 * Real.sin lp.lam, y1 * coslam⟩, false)

/-- laea_s_forward, laea.cpp lines 92-132 (spherical forward transform).
    Note that on the Equatorial/Oblique domain failure the C code has
    already stored the guarded quantity into xy.y, so the returned pair is
    (0, y0) with y0 ≤ EPS10, not necessarily the zero pair. -/
def laea_s_forward (lp : PJ_LP) (P : PJ) : PJ_XY × Bool :=
  let Q := P.Q
  let sinphi := Real.sin lp.phi
  let cosphi := Real.cos lp.phi
  let coslam := Real.cos lp.lam
  match Q.mode with
  | Mode.EQUIT =>
    let y0 := 1 + cosphi * coslam
    if y0 ≤ EPS10 then (⟨0, y0⟩, true)
    else
      let y1 := Real.sqrt (2 / y0)
      (⟨y1 * cosphi * Real.sin lp.lam, y1 * sinphi⟩, false)
  | Mode.OBLIQ =>
    let y0 := 1 + Q.sinb1 * sinphi + Q.cosb1 * cosphi * coslam
    if y0 ≤ EPS10 then (⟨0, y0⟩, true)
    else
      let y1 := Real.sqrt (2 / y0)
      (⟨y1 * cosphi * Real.sin lp.lam,
        y1 * (Q.cosb1 * sinphi - Q.sinb1 * cosphi * coslam)⟩, false)
  | Mode.N_POLE => laea_s_forward_polar Q.mode (-coslam) lp P.phi0
  | Mode.S_POLE => laea_s_forward_polar Q.mode coslam lp P.phi0

/-- laea_e_inverse, laea.cpp lines 134-186 (ellipsoidal inverse transform). -/
def laea_e_inverse (H : AuthHelper) (xy : PJ_XY) (P : PJ) : PJ_LP × Bool :=
  let Q := P.Q
  match Q.mode with
  | Mode.EQUIT | Mode.OBLIQ =>
    let x1 := xy.x / Q.dd
    let y1 := xy.y * Q.dd
    let rho := Real.sqrt (x1 * x1 + y1 * y1)
    if rho < EPS10 then (⟨0, P.phi0⟩, false)
    else
      let asinArg := 0.5 * rho / Q.rq
      if 1 < asinArg then (⟨0, 0⟩, true)
      else
        let sCe0 := 2 * Real.arcsin asinArg
        let cCe := Real.cos sCe0
        let sCe := Real.sin sCe0
        let x2 := x1 * sCe
        let ab :=
          if Q.mode = Mode.OBLIQ then cCe * Q.sinb1 + y1 * sCe * Q.cosb1 / rho
          else y1 * sCe / rho
        let y2 :=
          if Q.mode = Mode.OBLIQ then rho * Q.cosb1 * cCe - y1 * Q.sinb1 * sCe
          else rho * cCe
        (⟨atan2 x2 y2, H.latInv (Real.arcsin ab)⟩, false)
  | Mode.N_POLE | Mode.S_POLE =>
    let y1 := if Q.mode = Mode.N_POLE then -xy.y else xy.y
    let q := xy.x * xy.x + y1 * y1
    if q = 0 then (⟨0, P.phi0⟩, false)
    else
      let ab0 := 1 - q / Q.qp
      let ab := if Q.mode = Mode.S_POLE then -ab0 else ab0
      (⟨atan2 xy.x y1, H.latInv (Real.arcsin ab)⟩, false)

/-- laea_s_inverse, laea.cpp lines 188-229 (spherical inverse transform).
    On the rh/2 > 1 domain failure the C code has already stored rh/2 into
    lp.phi, so the returned pair is (0, rh/2), not the zero pair. -/
def laea_s_inverse (xy : PJ_XY) (P : PJ) : PJ_LP × Bool :=
  let Q := P.Q
  let rh := Real.sqrt (xy.x * xy.x + xy.y * xy.y)
  let phi1 := rh * 0.5
  if 1 < phi1 then (⟨0, phi1⟩, true)
  else
    let z := 2 * Real.arcsin phi1
    let sinz := if Q.mode = Mode.OBLIQ ∨ Q.mode = Mode.EQUIT then Real.sin z else 0
    let cosz := if Q.mode = Mode.OBLIQ ∨ Q.mode = Mode.EQUIT then Real.cos z else 0
    match Q.mode with
    | Mode.EQUIT =>
      let phi := if |rh| ≤ EPS10 then 0 else Real.arcsin (xy.y * sinz / rh)
      let x2 := xy.x * sinz
      let y2 := cosz * rh
      (⟨if y2 = 0 then 0 else atan2 x2 y2, phi⟩, false)
    | Mode.OBLIQ =>
      let phi :=
        if |rh| ≤ EPS10 then P.phi0
        else Real.arcsin (cosz * Q.sinb1 + xy.y * sinz * Q.cosb1 / rh)
      let x2 := xy.x * (sinz * Q.cosb1)
      let y2 := (cosz - Real.sin phi * Q.sinb1) * rh
      (⟨if y2 = 0 then 0 else atan2 x2 y2, phi⟩, false)
    | Mode.N_POLE =>
      (⟨atan2 xy.x (-xy.y), M_HALFPI - z⟩, false)
    | Mode.S_POLE =>
      (⟨atan2 xy.x xy.y, z - M_HALFPI⟩, false)

/-- Setup error kinds.  In this embedding memory allocation always succeeds,
    so the only setup failure is the illegal-argument rejection of lat_0. -/
inductive PJErr
  | illegalArg
deriving DecidableEq

/-- Mode classification of the setup routine, laea.cpp lines 252-263
    (the part after the range check): t = |phi0|; polar within EPS10 of
    pi/2 (sign of phi0 picks N/S), Equatorial within EPS10 of 0, else
    Oblique. -/
def laeaMode (phi0 : ℝ) : Mode :=
  let t := |phi0|
  if |t - M_HALFPI| < EPS10 then (if phi0 < 0 then Mode.S_POLE else Mode.N_POLE)
  else if |t| < EPS10 then Mode.EQUIT
  else Mode.OBLIQ

/-- The state built by PJ_PROJECTION(laea) on the non-rejecting path,
    laea.cpp lines 258-305.  Fields not assigned by the C code stay 0
    (the state is calloc'ed).  `apa` is `some ()` exactly on the
    ellipsoidal path (es ≠ 0), `none` on the spherical path. -/
def laeaState (H : AuthHelper) (phi0 es : ℝ) : PJ :=
  let mode := laeaMode phi0
  if es ≠ 0 then
    let e := Real.sqrt es
    let qp := H.q 1.0
    let mmf := 0.5 / (1 - es)
    let apa : Option Unit := some ()
    match mode with
    | Mode.N_POLE | Mode.S_POLE =>
      ⟨phi0, es, e, ⟨0, 0, 0, 0, mmf, qp, 1, 0, apa, mode⟩⟩
    | Mode.EQUIT =>
      let rq := Real.sqrt (0.5 * qp)
      ⟨phi0, es, e, ⟨0, 0, 1, 0.5 * qp, mmf, qp, 1 / rq, rq, apa, mode⟩⟩
    | Mode.OBLIQ =>
      let rq := Real.sqrt (0.5 * qp)
      let sinphi := Real.sin phi0
      let b1 := H.lat phi0
      let sinb1 := Real.sin b1
      let cosb1 := Real.cos b1
      let dd := Real.cos phi0 /
        (Real.sqrt (1 - es * sinphi * sinphi) * rq * cosb1)
      ⟨phi0, es, e, ⟨sinb1, cosb1, rq * dd, rq / dd, mmf, qp, dd, rq, apa, mode⟩⟩
  else
    if mode = Mode.OBLIQ then
      ⟨phi0, es, 0, ⟨Real.sin phi0, Real.cos phi0, 0, 0, 0, 0, 0, 0, none, mode⟩⟩
    else
      ⟨phi0, es, 0, ⟨0, 0, 0, 0, 0, 0, 0, 0, none, mode⟩⟩

/-- PJ_PROJECTION(laea), laea.cpp lines 243-308: reject |phi0| > pi/2 + EPS10
    with the illegal-argument error, otherwise build the state. -/
def laea (H : AuthHelper) (phi0 es : ℝ) : Except PJErr PJ :=
  if M_HALFPI + EPS10 < |phi0| then Except.error PJErr.illegalArg
  else Except.ok (laeaState H phi0 es)

/-- The bound forward transform: setup binds laea_e_forward when es ≠ 0
    and laea_s_forward otherwise (laea.cpp lines 296-297 and 303-304);
    `laeaState` records es in the instance, so the binding is equivalent to
    this dispatch on P.es. -/
def fwd (H : AuthHelper) (lp : PJ_LP) (P : PJ) : PJ_XY × Bool :=
  if P.es ≠ 0 then laea_e_forward H lp P else laea_s_forward lp P

/-- The bound inverse transform (dispatch dual to `fwd`). -/
def inv (H : AuthHelper) (xy : PJ_XY) (P : PJ) : PJ_LP × Bool :=
  if P.es ≠ 0 then laea_e_inverse H xy P else laea_s_inverse xy P

/-- A trivial helper instantiation (identity authalic conversion, identity
    q integral), used to build concrete instances in witnesses and
    counterexamples. -/
def trivH : AuthHelper := ⟨fun x => x, fun x => x, fun x => x⟩

/- ------------------------------------------------------------------ -/
/- Basic numeric facts and setup lemmas                               -/
/- ------------------------------------------------------------------ -/

lemma eps10_pos : (0 : ℝ) < EPS10 := by norm_num [EPS10]

lemma two_eps10_lt_halfpi : 2 * EPS10 < M_HALFPI := by
  have h := Real.pi_gt_three
  unfold EPS10 M_HALFPI
  nlinarith

lemma eps10_lt_halfpi : EPS10 < M_HALFPI := by
  have := two_eps10_lt_halfpi
  have := eps10_pos
  linarith

/-- The mode stored by the setup routine is `laeaMode phi0`. -/
lemma mode_laeaState (H : AuthHelper) (phi0 es : ℝ) :
    (laeaState H phi0 es).Q.mode = laeaMode phi0 := by
  by_cases hes : es = 0 <;>
    cases hm : laeaMode phi0 <;>
      simp [laeaState, hm, hes]

/-- apa nullability in the state built by setup. -/
lemma apa_laeaState (H : AuthHelper) (phi0 es : ℝ) :
    (laeaState H phi0 es).Q.apa = (if es ≠ 0 then some () else none) := by
  by_cases hes : es = 0 <;>
    cases hm : laeaMode phi0 <;>
      simp [laeaState, hm, hes]

/-- The setup routine records phi0 and es in the instance. -/
lemma phi0_es_laeaState (H : AuthHelper) (phi0 es : ℝ) :
    (laeaState H phi0 es).phi0 = phi0 ∧ (laeaState H phi0 es).es = es := by
  by_cases hes : es = 0 <;>
    cases hm : laeaMode phi0 <;>
      simp [laeaState, hm, hes]

/-- Inversion of a successful setup call: the instance is `laeaState`. -/
lemma laea_ok_inv {H : AuthHelper} {phi0 es : ℝ} {P : PJ}
    (h : laea H phi0 es = Except.ok P) : P = laeaState H phi0 es := by
  unfold laea at h
  split_ifs at h
  cases h
  rfl

/-- Classification: phi0 within EPS10 of +pi/2 gives North-Polar. -/
lemma laeaMode_npole {phi0 : ℝ} (h : |phi0 - M_HALFPI| < EPS10) :
    laeaMode phi0 = Mode.N_POLE := by
  have h1 := abs_lt.mp h
  have hpos : 0 < phi0 := by
    have := two_eps10_lt_halfpi
    have := eps10_pos
    linarith [h1.1]
  unfold laeaMode
  rw [abs_of_pos hpos]
  rw [if_pos h, if_neg (not_lt.mpr (le_of_lt hpos))]

/-- Classification: phi0 within EPS10 of -pi/2 gives South-Polar. -/
lemma laeaMode_spole {phi0 : ℝ} (h : |phi0 + M_HALFPI| < EPS10) :
    laeaMode phi0 = Mode.S_POLE := by
  have h1 := abs_lt.mp h
  have hneg : phi0 < 0 := by
    have := two_eps10_lt_halfpi
    have := eps10_pos
    linarith [h1.2]
  unfold laeaMode
  rw [abs_of_neg hneg]
  have habs : |-phi0 - M_HALFPI| < EPS10 := by
    rw [abs_sub_comm, show M_HALFPI - -phi0 = phi0 + M_HALFPI by ring]
    exact h
  rw [if_pos habs, if_pos hneg]

/-- Classification: |phi0| < EPS10 gives Equatorial. -/
lemma laeaMode_equit {phi0 : ℝ} (h : |phi0| < EPS10) :
    laeaMode phi0 = Mode.EQUIT := by
  unfold laeaMode
  have h1 : ¬ |(|phi0|) - M_HALFPI| < EPS10 := by
    have h2 := abs_nonneg phi0
    have h3 : |phi0| - M_HALFPI < 0 := by
      have := two_eps10_lt_halfpi
      linarith
    rw [abs_of_neg h3]
    have := two_eps10_lt_halfpi
    intro hcon
    linarith
  rw [if_neg h1, if_pos (by rwa [abs_abs])]

/-- Classification: every other latitude gives Oblique. -/
lemma laeaMode_obliq {phi0 : ℝ} (h1 : EPS10 ≤ |phi0|)
    (h2 : EPS10 ≤ |(|phi0|) - M_HALFPI|) :
    laeaMode phi0 = Mode.OBLIQ := by
  unfold laeaMode
  rw [if_neg (not_lt.mpr h2), if_neg (not_lt.mpr (by rwa [abs_abs]))]

/- ------------------------------------------------------------------ -/
/- C5: mode classification                                            -/
/- ------------------------------------------------------------------ -/

/-- C5: the aspect mode is a function of the center latitude alone:
    setup with phi0 within 1e-10 rad of +pi/2 yields North-Polar, within
    1e-10 of -pi/2 yields South-Polar, |phi0| < 1e-10 yields Equatorial,
    and every other valid phi0 yields Oblique.  (The stored mode never
    changes afterwards: in this embedding the transforms are pure
    functions that never rebuild the state.) -/
theorem C5_mode_classification (H : AuthHelper) (phi0 es : ℝ) (P : PJ)
    (h : laea H phi0 es = Except.ok P) :
    (|phi0 - M_HALFPI| < EPS10 → P.Q.mode = Mode.N_POLE) ∧
    (|phi0 + M_HALFPI| < EPS10 → P.Q.mode = Mode.S_POLE) ∧
    (|phi0| < EPS10 → P.Q.mode = Mode.EQUIT) ∧
    (EPS10 ≤ |phi0| → EPS10 ≤ |(|phi0|) - M_HALFPI| → P.Q.mode = Mode.OBLIQ) := by
  have hP : P = laeaState H phi0 es := laea_ok_inv h
  subst hP
  rw [mode_laeaState]
  exact ⟨fun hh => laeaMode_npole hh, fun hh => laeaMode_spole hh,
    fun hh => laeaMode_equit hh, fun hh hh' => laeaMode_obliq hh hh'⟩

/-- Witness for C5 at phi0 = pi/2 (the North-Polar boundary case of the
    spec). -/
theorem C5_mode_classification_witness :
    laea trivH M_HALFPI 0 = Except.ok (laeaState trivH M_HALFPI 0) ∧
    |M_HALFPI - M_HALFPI| < EPS10 ∧
    (laeaState trivH M_HALFPI 0).Q.mode = Mode.N_POLE := by
  have hok : laea trivH M_HALFPI 0 = Except.ok (laeaState trivH M_HALFPI 0) := by
    unfold laea
    rw [if_neg]
    rw [abs_of_pos (by linarith [eps10_pos, eps10_lt_halfpi])]
    push_neg
    linarith [eps10_pos]
  have h0 : |M_HALFPI - M_HALFPI| < EPS10 := by
    simp [eps10_pos]
  exact ⟨hok, h0,
    (C5_mode_classification trivH M_HALFPI 0 _ hok).1 h0⟩

/- ------------------------------------------------------------------ -/
/- C6: setup rejection of out-of-range center latitude                -/
/- ------------------------------------------------------------------ -/

/-- C6: setup fails with the illegal-argument (Invalid-Configuration) error
    exactly when |phi0| > pi/2 + EPS10, and otherwise produces an instance
    without raising that error. -/
theorem C6_setup_rejection (H : AuthHelper) (phi0 es : ℝ) :
    (M_HALFPI + EPS10 < |phi0| →
      laea H phi0 es = Except.error PJErr.illegalArg) ∧
    (|phi0| ≤ M_HALFPI + EPS10 →
      laea H phi0 es = Except.ok (laeaState H phi0 es)) := by
  constructor
  · intro h
    unfold laea
    rw [if_pos h]
  · intro h
    unfold laea
    rw [if_neg (not_lt.mpr h)]

/-- Witness for C6: phi0 = 100 degrees (100*pi/180 rad) is rejected;
    phi0 = 45 degrees (pi/4 rad) is accepted. -/
theorem C6_setup_rejection_witness :
    (M_HALFPI + EPS10 < |100 * Real.pi / 180|) ∧
    laea trivH (100 * Real.pi / 180) (1 / 2) = Except.error PJErr.illegalArg ∧
    (|Real.pi / 4| ≤ M_HALFPI + EPS10) ∧
    laea trivH (Real.pi / 4) (1 / 2) =
      Except.ok (laeaState trivH (Real.pi / 4) (1 / 2)) := by
  have hpi := Real.pi_gt_three
  have h1 : M_HALFPI + EPS10 < |100 * Real.pi / 180| := by
    rw [abs_of_pos (by nlinarith [Real.pi_pos])]
    unfold M_HALFPI EPS10
    nlinarith
  have h2 : |Real.pi / 4| ≤ M_HALFPI + EPS10 := by
    rw [abs_of_pos (by nlinarith [Real.pi_pos])]
    unfold M_HALFPI EPS10
    nlinarith
  exact ⟨h1, (C6_setup_rejection trivH (100 * Real.pi / 180) (1 / 2)).1 h1,
    h2, (C6_setup_rejection trivH (Real.pi / 4) (1 / 2)).2 h2⟩

/- ------------------------------------------------------------------ -/
/- C7: spherical polar forward domain guard                           -/
/- ------------------------------------------------------------------ -/

/-- C7: in a polar mode the spherical forward transform raises the
    outside-projection-domain error exactly when |phi + phi0| < EPS10
    (the point antipodal to the projection center); all other polar-mode
    inputs raise no domain error. -/
theorem C7_polar_antipodal_guard (lp : PJ_LP) (P : PJ)
    (h : P.Q.mode = Mode.N_POLE ∨ P.Q.mode = Mode.S_POLE) :
    ((laea_s_forward lp P).2 = true ↔ |lp.phi + P.phi0| < EPS10) := by
  rcases h with h | h <;>
  · simp only [laea_s_forward, h, laea_s_forward_polar]
    split_ifs with hg <;> simp [hg]

/-- Witness for C7: the North-Polar spherical instance (phi0 = pi/2, es = 0)
    raises the domain error at lat = -pi/2 (the spec's example). -/
theorem C7_polar_antipodal_guard_witness :
    ((laeaState trivH M_HALFPI 0).Q.mode = Mode.N_POLE ∨
      (laeaState trivH M_HALFPI 0).Q.mode = Mode.S_POLE) ∧
    ((laea_s_forward ⟨0, -M_HALFPI⟩ (laeaState trivH M_HALFPI 0)).2 = true ↔
      |(-M_HALFPI) + (laeaState trivH M_HALFPI 0).phi0| < EPS10) ∧
    (laea_s_forward ⟨0, -M_HALFPI⟩ (laeaState trivH M_HALFPI 0)).2 = true := by
  have hm : (laeaState trivH M_HALFPI 0).Q.mode = Mode.N_POLE := by
    rw [mode_laeaState]
    exact laeaMode_npole (by simp [eps10_pos])
  have hiff := C7_polar_antipodal_guard ⟨0, -M_HALFPI⟩ _ (Or.inl hm)
  have hphi0 := (phi0_es_laeaState trivH M_HALFPI 0).1
  refine ⟨Or.inl hm, hiff, hiff.mpr ?_⟩
  rw [hphi0]
  simp [eps10_pos]

/- ------------------------------------------------------------------ -/
/- C8: apa is non-null iff the eccentricity is nonzero                -/
/- ------------------------------------------------------------------ -/

/-- C8: for every successfully constructed instance, the apa coefficient
    pointer is non-null iff the squared eccentricity es passed to setup is
    nonzero.  (The state is never mutated after setup in this functional
    embedding, so in the spherical case apa stays null for the instance's
    whole lifetime.) -/
theorem C8_apa_iff_es (H : AuthHelper) (phi0 es : ℝ) (P : PJ)
    (h : laea H phi0 es = Except.ok P) :
    P.Q.apa ≠ none ↔ es ≠ 0 := by
  have hP : P = laeaState H phi0 es := laea_ok_inv h
  subst hP
  rw [apa_laeaState]
  by_cases hes : es = 0 <;> simp [hes]

/-- Witness for C8: a spherical instance (es = 0) has apa = none, an
    ellipsoidal instance (es = 1/2) has apa non-null. -/
theorem C8_apa_iff_es_witness :
    laea trivH (Real.pi / 4) 0 = Except.ok (laeaState trivH (Real.pi / 4) 0) ∧
    ¬((laeaState trivH (Real.pi / 4) 0).Q.apa ≠ none) ∧
    laea trivH (Real.pi / 4) (1 / 2) =
      Except.ok (laeaState trivH (Real.pi / 4) (1 / 2)) ∧
    (laeaState trivH (Real.pi / 4) (1 / 2)).Q.apa ≠ none := by
  have hpi := Real.pi_gt_three
  have h2 : |Real.pi / 4| ≤ M_HALFPI + EPS10 := by
    rw [abs_of_pos (by nlinarith [Real.pi_pos])]
    unfold M_HALFPI EPS10
    nlinarith
  have hok0 : laea trivH (Real.pi / 4) 0 =
      Except.ok (laeaState trivH (Real.pi / 4) 0) := by
    unfold laea
    rw [if_neg (not_lt.mpr h2)]
  have hok1 : laea trivH (Real.pi / 4) (1 / 2) =
      Except.ok (laeaState trivH (Real.pi / 4) (1 / 2)) := by
    unfold laea
    rw [if_neg (not_lt.mpr h2)]
  refine ⟨hok0, ?_, hok1, ?_⟩
  · intro hcon
    exact absurd rfl ((C8_apa_iff_es trivH (Real.pi / 4) 0 _ hok0).mp hcon)
  · exact (C8_apa_iff_es trivH (Real.pi / 4) (1 / 2) _ hok1).mpr (by norm_num)

/- ------------------------------------------------------------------ -/
/- C9: spherical equatorial longitude symmetry                        -/
/- ------------------------------------------------------------------ -/

/-- C9: for a spherical Equatorial-mode instance, forward(-lon, lat) has
    the same y, the negated x, and the same error status as
    forward(lon, lat) — for every input, singular or not. -/
theorem C9_equatorial_symmetry (lp : PJ_LP) (P : PJ)
    (h : P.Q.mode = Mode.EQUIT) :
    (laea_s_forward ⟨-lp.lam, lp.phi⟩ P).1.x = -(laea_s_forward lp P).1.x ∧
    (laea_s_forward ⟨-lp.lam, lp.phi⟩ P).1.y = (laea_s_forward lp P).1.y ∧
    (laea_s_forward ⟨-lp.lam, lp.phi⟩ P).2 = (laea_s_forward lp P).2 := by
  simp only [laea_s_forward, h, Real.cos_neg, Real.sin_neg]
  split_ifs with hg <;>
    exact ⟨by ring, rfl, rfl⟩

/-- Witness for C9 at the spherical equatorial instance phi0 = 0, input
    (lon, lat) = (1, 1). -/
theorem C9_equatorial_symmetry_witness :
    (laeaState trivH 0 0).Q.mode = Mode.EQUIT ∧
    (laea_s_forward ⟨-1, 1⟩ (laeaState trivH 0 0)).1.x =
      -(laea_s_forward ⟨1, 1⟩ (laeaState trivH 0 0)).1.x ∧
    (laea_s_forward ⟨-1, 1⟩ (laeaState trivH 0 0)).1.y =
      (laea_s_forward ⟨1, 1⟩ (laeaState trivH 0 0)).1.y ∧
    (laea_s_forward ⟨-1, 1⟩ (laeaState trivH 0 0)).2 =
      (laea_s_forward ⟨1, 1⟩ (laeaState trivH 0 0)).2 := by
  have hm : (laeaState trivH 0 0).Q.mode = Mode.EQUIT := by
    rw [mode_laeaState]
    exact laeaMode_equit (by simp [eps10_pos])
  exact ⟨hm, C9_equatorial_symmetry ⟨1, 1⟩ _ hm⟩

/- ------------------------------------------------------------------ -/
/- Analytic helper lemmas for the round-trip proofs                   -/
/- ------------------------------------------------------------------ -/

/-- atan2 recovers the angle of a point given in polar form, for any
    positive radius and angle in (-pi, pi]. -/
lemma atan2_mul_sin_cos {r θ : ℝ} (hr : 0 < r)
    (hθ : θ ∈ Set.Ioc (-Real.pi) Real.pi) :
    atan2 (r * Real.sin θ) (r * Real.cos θ) = θ := by
  have h1 : (⟨r * Real.cos θ, r * Real.sin θ⟩ : ℂ) =
      (r : ℂ) * (Complex.cos (θ : ℂ) + Complex.sin (θ : ℂ) * Complex.I) := by
    apply Complex.ext <;>
      simp [Complex.cos_ofReal_re, Complex.sin_ofReal_re, Complex.mul_re,
        Complex.mul_im, Complex.cos_ofReal_im, Complex.sin_ofReal_im]
  unfold atan2
  rw [h1]
  exact Complex.arg_mul_cos_add_sin_mul_I hr hθ

/-- A nonnegative number whose square exceeds eps^2 exceeds eps. -/
lemma lt_sqrt_of_sq_lt {x ε : ℝ} (hε : 0 ≤ ε) (hx : ε ^ 2 < x) :
    ε < Real.sqrt x := by
  have h0 : 0 ≤ x := by nlinarith
  nlinarith [Real.sq_sqrt h0, Real.sqrt_nonneg x]

/-- sqrt is bounded by c when the radicand is bounded by c^2. -/
lemma sqrt_le_of_le_sq {x c : ℝ} (hc : 0 ≤ c) (hx : x ≤ c ^ 2) :
    Real.sqrt x ≤ c := by
  calc Real.sqrt x ≤ Real.sqrt (c ^ 2) := Real.sqrt_le_sqrt hx
    _ = c := Real.sqrt_sq hc

/-- Sine and cosine of twice an arcsine. -/
lemma sin_cos_two_arcsin {t : ℝ} (h0 : -1 ≤ t) (h1 : t ≤ 1) :
    Real.sin (2 * Real.arcsin t) = 2 * t * Real.sqrt (1 - t ^ 2) ∧
    Real.cos (2 * Real.arcsin t) = 1 - 2 * t ^ 2 := by
  constructor
  · rw [Real.sin_two_mul, Real.sin_arcsin h0 h1, Real.cos_arcsin]
  · rw [Real.cos_two_mul, Real.cos_arcsin,
      Real.sq_sqrt (by nlinarith : (0 : ℝ) ≤ 1 - t ^ 2)]
    ring

/-- The radial factor sqrt(2/a) * sqrt(a/2) collapses to 1. -/
lemma sqrt_two_div_mul_sqrt_div_two {a : ℝ} (ha : 0 < a) :
    Real.sqrt (2 / a) * Real.sqrt (a / 2) = 1 := by
  rw [← Real.sqrt_mul (by positivity)]
  rw [show 2 / a * (a / 2) = 1 by field_simp]
  exact Real.sqrt_one

/-- Oblique Pythagoras: the squared norm of the forward direction vector
    (before the radial factor) is (1-c)(1+c) for
    c = s1*sp + c1*cp*cl. -/
lemma obliq_norm_sq {s1 c1 sp cp sl cl : ℝ}
    (h1 : s1 ^ 2 + c1 ^ 2 = 1) (h2 : sp ^ 2 + cp ^ 2 = 1)
    (h3 : sl ^ 2 + cl ^ 2 = 1) :
    (cp * sl) ^ 2 + (c1 * sp - s1 * cp * cl) ^ 2 =
      (1 - (s1 * sp + c1 * cp * cl)) * (1 + (s1 * sp + c1 * cp * cl)) := by
  linear_combination (sp ^ 2 + cp ^ 2 * cl ^ 2) * h1 + h2 + cp ^ 2 * h3

/-- Oblique latitude recovery: c*s1 + (c1*sp - s1*cp*cl)*c1 = sp. -/
lemma obliq_lat_recovery {s1 c1 sp cp cl : ℝ} (h1 : s1 ^ 2 + c1 ^ 2 = 1) :
    (s1 * sp + c1 * cp * cl) * s1 + (c1 * sp - s1 * cp * cl) * c1 = sp := by
  linear_combination sp * h1

/- ------------------------------------------------------------------ -/
/- Branch evaluation lemmas for the transforms                        -/
/- ------------------------------------------------------------------ -/

lemma laeaState_s_npole (H : AuthHelper) {phi0 : ℝ}
    (h : |phi0 - M_HALFPI| < EPS10) :
    laeaState H phi0 0 =
      ⟨phi0, 0, 0, ⟨0, 0, 0, 0, 0, 0, 0, 0, none, Mode.N_POLE⟩⟩ := by
  have hm := laeaMode_npole h
  simp [laeaState, hm]

lemma laeaState_s_spole (H : AuthHelper) {phi0 : ℝ}
    (h : |phi0 + M_HALFPI| < EPS10) :
    laeaState H phi0 0 =
      ⟨phi0, 0, 0, ⟨0, 0, 0, 0, 0, 0, 0, 0, none, Mode.S_POLE⟩⟩ := by
  have hm := laeaMode_spole h
  simp [laeaState, hm]

lemma laeaState_s_equit (H : AuthHelper) {phi0 : ℝ} (h : |phi0| < EPS10) :
    laeaState H phi0 0 =
      ⟨phi0, 0, 0, ⟨0, 0, 0, 0, 0, 0, 0, 0, none, Mode.EQUIT⟩⟩ := by
  have hm := laeaMode_equit h
  simp [laeaState, hm]

lemma laeaState_s_obliq (H : AuthHelper) {phi0 : ℝ}
    (h1 : EPS10 ≤ |phi0|) (h2 : EPS10 ≤ |(|phi0|) - M_HALFPI|) :
    laeaState H phi0 0 =
      ⟨phi0, 0, 0, ⟨Real.sin phi0, Real.cos phi0, 0, 0, 0, 0, 0, 0, none,
        Mode.OBLIQ⟩⟩ := by
  have hm := laeaMode_obliq h1 h2
  simp [laeaState, hm]

lemma laea_s_forward_npole_eval (lp : PJ_LP) (P : PJ) (t : ℝ)
    (hm : P.Q.mode = Mode.N_POLE)
    (hg : ¬ |lp.phi + P.phi0| < EPS10)
    (ht : t = M_FORTPI - lp.phi * 0.5) :
    laea_s_forward lp P =
      (⟨2 * Real.sin t * Real.sin lp.lam, 2 * Real.sin t * -Real.cos lp.lam⟩,
        false) := by
  subst ht
  simp only [laea_s_forward, laea_s_forward_polar, hm]
  rw [if_neg hg, if_neg (by simp)]

lemma laea_s_forward_spole_eval (lp : PJ_LP) (P : PJ) (t : ℝ)
    (hm : P.Q.mode = Mode.S_POLE)
    (hg : ¬ |lp.phi + P.phi0| < EPS10)
    (ht : t = M_FORTPI - lp.phi * 0.5) :
    laea_s_forward lp P =
      (⟨2 * Real.cos t * Real.sin lp.lam, 2 * Real.cos t * Real.cos lp.lam⟩,
        false) := by
  subst ht
  simp only [laea_s_forward, laea_s_forward_polar, hm]
  rw [if_neg hg]
  simp

lemma laea_s_inverse_npole_eval (x y : ℝ) (P : PJ) (rh z : ℝ)
    (hm : P.Q.mode = Mode.N_POLE)
    (hrh : rh = Real.sqrt (x * x + y * y))
    (hg : ¬ 1 < rh * 0.5)
    (hz : z = 2 * Real.arcsin (rh * 0.5)) :
    laea_s_inverse ⟨x, y⟩ P = (⟨atan2 x (-y), M_HALFPI - z⟩, false) := by
  subst hrh hz
  simp only [laea_s_inverse, hm]
  rw [if_neg hg]

lemma laea_s_inverse_spole_eval (x y : ℝ) (P : PJ) (rh z : ℝ)
    (hm : P.Q.mode = Mode.S_POLE)
    (hrh : rh = Real.sqrt (x * x + y * y))
    (hg : ¬ 1 < rh * 0.5)
    (hz : z = 2 * Real.arcsin (rh * 0.5)) :
    laea_s_inverse ⟨x, y⟩ P = (⟨atan2 x y, z - M_HALFPI⟩, false) := by
  subst hrh hz
  simp only [laea_s_inverse, hm]
  rw [if_neg hg]

/-- EPS10 squared is below 2u whenever EPS10 <= u. -/
lemma eps10_sq_lt_two_mul {u : ℝ} (hu : EPS10 ≤ u) : EPS10 ^ 2 < 2 * u := by
  unfold EPS10 at *
  nlinarith

lemma laea_s_forward_equit_eval (lp : PJ_LP) (P : PJ) (y0 : ℝ)
    (hm : P.Q.mode = Mode.EQUIT)
    (hy0 : y0 = 1 + Real.cos lp.phi * Real.cos lp.lam)
    (hg : ¬ y0 ≤ EPS10) :
    laea_s_forward lp P =
      (⟨Real.sqrt (2 / y0) * Real.cos lp.phi * Real.sin lp.lam,
        Real.sqrt (2 / y0) * Real.sin lp.phi⟩, false) := by
  subst hy0
  simp only [laea_s_forward, hm]
  rw [if_neg hg]

lemma laea_s_forward_obliq_eval (lp : PJ_LP) (P : PJ) (y0 : ℝ)
    (hm : P.Q.mode = Mode.OBLIQ)
    (hy0 : y0 = 1 + P.Q.sinb1 * Real.sin lp.phi +
      P.Q.cosb1 * Real.cos lp.phi * Real.cos lp.lam)
    (hg : ¬ y0 ≤ EPS10) :
    laea_s_forward lp P =
      (⟨Real.sqrt (2 / y0) * Real.cos lp.phi * Real.sin lp.lam,
        Real.sqrt (2 / y0) * (P.Q.cosb1 * Real.sin lp.phi -
          P.Q.sinb1 * Real.cos lp.phi * Real.cos lp.lam)⟩, false) := by
  subst hy0
  simp only [laea_s_forward, hm]
  rw [if_neg hg]

lemma laea_s_inverse_equit_eval (x y : ℝ) (P : PJ) (rh z phi x2 y2 : ℝ)
    (hm : P.Q.mode = Mode.EQUIT)
    (hrh : rh = Real.sqrt (x * x + y * y))
    (hg1 : ¬ 1 < rh * 0.5)
    (hz : z = 2 * Real.arcsin (rh * 0.5))
    (hg2 : ¬ |rh| ≤ EPS10)
    (hphi : phi = Real.arcsin (y * Real.sin z / rh))
    (hx2 : x2 = x * Real.sin z)
    (hy2 : y2 = Real.cos z * rh)
    (hy2ne : y2 ≠ 0) :
    laea_s_inverse ⟨x, y⟩ P = (⟨atan2 x2 y2, phi⟩, false) := by
  subst hrh hz hphi hx2 hy2
  simp only [laea_s_inverse, hm]
  rw [if_neg hg1]
  simp only [or_true, if_true]
  rw [if_neg hg2]
  rw [if_neg hy2ne]

lemma laea_s_inverse_obliq_eval (x y : ℝ) (P : PJ) (rh z phi x2 y2 : ℝ)
    (hm : P.Q.mode = Mode.OBLIQ)
    (hrh : rh = Real.sqrt (x * x + y * y))
    (hg1 : ¬ 1 < rh * 0.5)
    (hz : z = 2 * Real.arcsin (rh * 0.5))
    (hg2 : ¬ |rh| ≤ EPS10)
    (hphi : phi = Real.arcsin (Real.cos z * P.Q.sinb1 +
      y * Real.sin z * P.Q.cosb1 / rh))
    (hx2 : x2 = x * (Real.sin z * P.Q.cosb1))
    (hy2 : y2 = (Real.cos z - Real.sin phi * P.Q.sinb1) * rh)
    (hy2ne : y2 ≠ 0) :
    laea_s_inverse ⟨x, y⟩ P = (⟨atan2 x2 y2, phi⟩, false) := by
  subst hrh hz hphi
  subst hx2 hy2
  simp only [laea_s_inverse, hm]
  rw [if_neg hg1]
  simp only [true_or, if_true]
  rw [if_neg hg2]
  rw [if_neg hy2ne]

lemma laeaState_e_npole (H : AuthHelper) {phi0 es : ℝ} (hes : es ≠ 0)
    (h : |phi0 - M_HALFPI| < EPS10) :
    laeaState H phi0 es =
      ⟨phi0, es, Real.sqrt es, ⟨0, 0, 0, 0, 0.5 / (1 - es), H.q 1.0, 1, 0,
        some (), Mode.N_POLE⟩⟩ := by
  have hm := laeaMode_npole h
  simp [laeaState, hm, hes]

lemma laeaState_e_spole (H : AuthHelper) {phi0 es : ℝ} (hes : es ≠ 0)
    (h : |phi0 + M_HALFPI| < EPS10) :
    laeaState H phi0 es =
      ⟨phi0, es, Real.sqrt es, ⟨0, 0, 0, 0, 0.5 / (1 - es), H.q 1.0, 1, 0,
        some (), Mode.S_POLE⟩⟩ := by
  have hm := laeaMode_spole h
  simp [laeaState, hm, hes]

lemma laeaState_e_equit (H : AuthHelper) {phi0 es : ℝ} (hes : es ≠ 0)
    (h : |phi0| < EPS10) :
    laeaState H phi0 es =
      ⟨phi0, es, Real.sqrt es, ⟨0, 0, 1, 0.5 * H.q 1.0, 0.5 / (1 - es),
        H.q 1.0, 1 / Real.sqrt (0.5 * H.q 1.0), Real.sqrt (0.5 * H.q 1.0),
        some (), Mode.EQUIT⟩⟩ := by
  have hm := laeaMode_equit h
  simp [laeaState, hm, hes]

lemma laeaState_e_obliq (H : AuthHelper) {phi0 es : ℝ} (hes : es ≠ 0)
    (h1 : EPS10 ≤ |phi0|) (h2 : EPS10 ≤ |(|phi0|) - M_HALFPI|) :
    laeaState H phi0 es =
      ⟨phi0, es, Real.sqrt es,
        ⟨Real.sin (H.lat phi0), Real.cos (H.lat phi0),
          Real.sqrt (0.5 * H.q 1.0) *
            (Real.cos phi0 / (Real.sqrt (1 - es * Real.sin phi0 * Real.sin phi0) *
              Real.sqrt (0.5 * H.q 1.0) * Real.cos (H.lat phi0))),
          Real.sqrt (0.5 * H.q 1.0) /
            (Real.cos phi0 / (Real.sqrt (1 - es * Real.sin phi0 * Real.sin phi0) *
              Real.sqrt (0.5 * H.q 1.0) * Real.cos (H.lat phi0))),
          0.5 / (1 - es), H.q 1.0,
          Real.cos phi0 / (Real.sqrt (1 - es * Real.sin phi0 * Real.sin phi0) *
            Real.sqrt (0.5 * H.q 1.0) * Real.cos (H.lat phi0)),
          Real.sqrt (0.5 * H.q 1.0), some (), Mode.OBLIQ⟩⟩ := by
  have hm := laeaMode_obliq h1 h2
  simp [laeaState, hm, hes]

lemma laea_e_forward_npole_eval (H : AuthHelper) (lp : PJ_LP) (P : PJ)
    (xi q1 : ℝ)
    (hm : P.Q.mode = Mode.N_POLE)
    (hxi : xi = H.lat lp.phi)
    (hq1 : q1 = P.Q.qp - Real.sin xi * P.Q.qp)
    (hg : ¬ |M_HALFPI + lp.phi| < EPS10)
    (hq : 1e-15 ≤ q1) :
    laea_e_forward H lp P =
      (⟨Real.sqrt q1 * Real.sin lp.lam,
        Real.cos lp.lam * -Real.sqrt q1⟩, false) := by
  subst hxi hq1
  simp only [laea_e_forward, hm]
  rw [if_neg hg, if_pos hq]
  simp

lemma laea_e_forward_spole_eval (H : AuthHelper) (lp : PJ_LP) (P : PJ)
    (xi q1 : ℝ)
    (hm : P.Q.mode = Mode.S_POLE)
    (hxi : xi = H.lat lp.phi)
    (hq1 : q1 = P.Q.qp + Real.sin xi * P.Q.qp)
    (hg : ¬ |lp.phi - M_HALFPI| < EPS10)
    (hq : 1e-15 ≤ q1) :
    laea_e_forward H lp P =
      (⟨Real.sqrt q1 * Real.sin lp.lam,
        Real.cos lp.lam * Real.sqrt q1⟩, false) := by
  subst hxi hq1
  simp only [laea_e_forward, hm]
  rw [if_neg hg, if_pos hq]
  simp

lemma laea_e_forward_equit_eval (H : AuthHelper) (lp : PJ_LP) (P : PJ)
    (xi b : ℝ)
    (hm : P.Q.mode = Mode.EQUIT)
    (hxi : xi = H.lat lp.phi)
    (hb : b = 1 + Real.cos xi * Real.cos lp.lam)
    (hg : ¬ |b| < EPS10) :
    laea_e_forward H lp P =
      (⟨P.Q.xmf * Real.sqrt (2 / b) * Real.cos xi * Real.sin lp.lam,
        Real.sqrt (2 / b) * Real.sin xi * P.Q.ymf⟩, false) := by
  subst hxi hb
  simp only [laea_e_forward, hm]
  simp only [or_true, if_true]
  rw [if_neg hg]

lemma laea_e_forward_obliq_eval (H : AuthHelper) (lp : PJ_LP) (P : PJ)
    (xi b : ℝ)
    (hm : P.Q.mode = Mode.OBLIQ)
    (hxi : xi = H.lat lp.phi)
    (hb : b = 1 + P.Q.sinb1 * Real.sin xi +
      P.Q.cosb1 * Real.cos xi * Real.cos lp.lam)
    (hg : ¬ |b| < EPS10) :
    laea_e_forward H lp P =
      (⟨P.Q.xmf * Real.sqrt (2 / b) * Real.cos xi * Real.sin lp.lam,
        P.Q.ymf * Real.sqrt (2 / b) * (P.Q.cosb1 * Real.sin xi -
          P.Q.sinb1 * Real.cos xi * Real.cos lp.lam)⟩, false) := by
  subst hxi hb
  simp only [laea_e_forward, hm]
  simp only [true_or, if_true]
  rw [if_neg hg]

lemma laea_e_inverse_npole_eval (H : AuthHelper) (x y : ℝ) (P : PJ)
    (q ab : ℝ)
    (hm : P.Q.mode = Mode.N_POLE)
    (hq : q = x * x + -y * -y)
    (hqne : ¬ q = 0)
    (hab : ab = 1 - q / P.Q.qp) :
    laea_e_inverse H ⟨x, y⟩ P =
      (⟨atan2 x (-y), H.latInv (Real.arcsin ab)⟩, false) := by
  subst hq hab
  simp only [laea_e_inverse, hm]
  simp only [show (Mode.N_POLE = Mode.N_POLE) = True from by simp,
    show (Mode.N_POLE = Mode.S_POLE) = False from by simp, if_true, if_false]
  rw [if_neg hqne]

lemma laea_e_inverse_spole_eval (H : AuthHelper) (x y : ℝ) (P : PJ)
    (q ab : ℝ)
    (hm : P.Q.mode = Mode.S_POLE)
    (hq : q = x * x + y * y)
    (hqne : ¬ q = 0)
    (hab : ab = -(1 - q / P.Q.qp)) :
    laea_e_inverse H ⟨x, y⟩ P =
      (⟨atan2 x y, H.latInv (Real.arcsin ab)⟩, false) := by
  subst hq hab
  simp only [laea_e_inverse, hm]
  simp only [show (Mode.S_POLE = Mode.N_POLE) = False from by simp,
    show (Mode.S_POLE = Mode.S_POLE) = True from by simp, if_true, if_false]
  rw [if_neg hqne]

lemma laea_e_inverse_equit_eval (H : AuthHelper) (x y : ℝ) (P : PJ)
    (x1 y1 rho ce ab x2 y2 : ℝ)
    (hm : P.Q.mode = Mode.EQUIT)
    (hx1 : x1 = x / P.Q.dd)
    (hy1 : y1 = y * P.Q.dd)
    (hrho : rho = Real.sqrt (x1 * x1 + y1 * y1))
    (hg1 : ¬ rho < EPS10)
    (hg2 : ¬ 1 < 0.5 * rho / P.Q.rq)
    (hce : ce = 2 * Real.arcsin (0.5 * rho / P.Q.rq))
    (hab : ab = y1 * Real.sin ce / rho)
    (hx2 : x2 = x1 * Real.sin ce)
    (hy2 : y2 = rho * Real.cos ce) :
    laea_e_inverse H ⟨x, y⟩ P =
      (⟨atan2 x2 y2, H.latInv (Real.arcsin ab)⟩, false) := by
  subst hx1 hy1 hrho hce hab hx2 hy2
  simp only [laea_e_inverse, hm]
  rw [if_neg hg1, if_neg hg2]
  simp

lemma laea_e_inverse_obliq_eval (H : AuthHelper) (x y : ℝ) (P : PJ)
    (x1 y1 rho ce ab x2 y2 : ℝ)
    (hm : P.Q.mode = Mode.OBLIQ)
    (hx1 : x1 = x / P.Q.dd)
    (hy1 : y1 = y * P.Q.dd)
    (hrho : rho = Real.sqrt (x1 * x1 + y1 * y1))
    (hg1 : ¬ rho < EPS10)
    (hg2 : ¬ 1 < 0.5 * rho / P.Q.rq)
    (hce : ce = 2 * Real.arcsin (0.5 * rho / P.Q.rq))
    (hab : ab = Real.cos ce * P.Q.sinb1 + y1 * Real.sin ce * P.Q.cosb1 / rho)
    (hx2 : x2 = x1 * Real.sin ce)
    (hy2 : y2 = rho * P.Q.cosb1 * Real.cos ce - y1 * P.Q.sinb1 * Real.sin ce) :
    laea_e_inverse H ⟨x, y⟩ P =
      (⟨atan2 x2 y2, H.latInv (Real.arcsin ab)⟩, false) := by
  subst hx1 hy1 hrho hce hab hx2 hy2
  simp only [laea_e_inverse, hm]
  rw [if_neg hg1, if_neg hg2]
  simp

/- ------------------------------------------------------------------ -/
/- Round-trip lemmas, ellipsoidal polar modes                         -/
/- ------------------------------------------------------------------ -/

lemma roundtrip_e_npole (H : AuthHelper) (phi0 es : ℝ) (lp : PJ_LP)
    (hes : es ≠ 0)
    (hcls : |phi0 - M_HALFPI| < EPS10)
    (hqp : 0 < H.q 1.0)
    (hxi : H.lat lp.phi ∈ Set.Icc (-(Real.pi / 2)) (Real.pi / 2))
    (hinv : H.latInv (H.lat lp.phi) = lp.phi)
    (hg : ¬ |M_HALFPI + lp.phi| < EPS10)
    (hq15 : 1e-15 ≤ H.q 1.0 - Real.sin (H.lat lp.phi) * H.q 1.0)
    (hlam : lp.lam ∈ Set.Ioc (-Real.pi) Real.pi) :
    (laea_e_forward H lp (laeaState H phi0 es)).2 = false ∧
    laea_e_inverse H (laea_e_forward H lp (laeaState H phi0 es)).1
      (laeaState H phi0 es) = (lp, false) := by
  have hR := laeaState_e_npole H hes hcls
  have hm : (laeaState H phi0 es).Q.mode = Mode.N_POLE := by rw [hR]
  have hqpR : (laeaState H phi0 es).Q.qp = H.q 1.0 := by rw [hR]
  obtain ⟨q1, hq1⟩ : ∃ v : ℝ,
      v = H.q 1.0 - Real.sin (H.lat lp.phi) * H.q 1.0 := ⟨_, rfl⟩
  have hq1P : q1 = (laeaState H phi0 es).Q.qp -
      Real.sin (H.lat lp.phi) * (laeaState H phi0 es).Q.qp := by
    rw [hqpR]
    exact hq1
  have hq1pos : (0 : ℝ) < q1 := by
    rw [hq1]
    have h15 : (0 : ℝ) < 1e-15 := by norm_num
    linarith
  have hsq : Real.sqrt q1 ^ 2 = q1 := Real.sq_sqrt hq1pos.le
  have hsqpos : 0 < Real.sqrt q1 := Real.sqrt_pos.mpr hq1pos
  have hfwd := laea_e_forward_npole_eval H lp (laeaState H phi0 es)
    (H.lat lp.phi) q1 hm rfl hq1P hg (by rw [hq1]; exact hq15)
  have hfwd2 : (laea_e_forward H lp (laeaState H phi0 es)).2 = false := by
    rw [hfwd]
  refine ⟨hfwd2, ?_⟩
  obtain ⟨x, hx⟩ : ∃ v : ℝ, v = Real.sqrt q1 * Real.sin lp.lam := ⟨_, rfl⟩
  obtain ⟨y, hy⟩ : ∃ v : ℝ, v = Real.cos lp.lam * -Real.sqrt q1 := ⟨_, rfl⟩
  have hfwd1 : (laea_e_forward H lp (laeaState H phi0 es)).1 = ⟨x, y⟩ := by
    rw [hfwd, hx, hy]
  rw [hfwd1]
  have hqval : q1 = x * x + -y * -y := by
    rw [hx, hy]
    linear_combination
      (-(Real.sin lp.lam ^ 2) - Real.cos lp.lam ^ 2) * hsq -
        q1 * Real.sin_sq_add_cos_sq lp.lam
  have hqne : ¬ q1 = 0 := ne_of_gt hq1pos
  have hab : Real.sin (H.lat lp.phi) = 1 - q1 / (laeaState H phi0 es).Q.qp := by
    rw [hqpR, hq1]
    field_simp
  rw [laea_e_inverse_npole_eval H x y (laeaState H phi0 es) q1
    (Real.sin (H.lat lp.phi)) hm hqval hqne hab]
  rw [hx, hy]
  rw [show -(Real.cos lp.lam * -Real.sqrt q1) =
    Real.sqrt q1 * Real.cos lp.lam by ring]
  rw [atan2_mul_sin_cos hsqpos hlam]
  rw [Real.arcsin_sin (by linarith [hxi.1]) (by linarith [hxi.2]), hinv]

lemma roundtrip_e_spole (H : AuthHelper) (phi0 es : ℝ) (lp : PJ_LP)
    (hes : es ≠ 0)
    (hcls : |phi0 + M_HALFPI| < EPS10)
    (hqp : 0 < H.q 1.0)
    (hxi : H.lat lp.phi ∈ Set.Icc (-(Real.pi / 2)) (Real.pi / 2))
    (hinv : H.latInv (H.lat lp.phi) = lp.phi)
    (hg : ¬ |lp.phi - M_HALFPI| < EPS10)
    (hq15 : 1e-15 ≤ H.q 1.0 + Real.sin (H.lat lp.phi) * H.q 1.0)
    (hlam : lp.lam ∈ Set.Ioc (-Real.pi) Real.pi) :
    (laea_e_forward H lp (laeaState H phi0 es)).2 = false ∧
    laea_e_inverse H (laea_e_forward H lp (laeaState H phi0 es)).1
      (laeaState H phi0 es) = (lp, false) := by
  have hR := laeaState_e_spole H hes hcls
  have hm : (laeaState H phi0 es).Q.mode = Mode.S_POLE := by rw [hR]
  have hqpR : (laeaState H phi0 es).Q.qp = H.q 1.0 := by rw [hR]
  obtain ⟨q1, hq1⟩ : ∃ v : ℝ,
      v = H.q 1.0 + Real.sin (H.lat lp.phi) * H.q 1.0 := ⟨_, rfl⟩
  have hq1P : q1 = (laeaState H phi0 es).Q.qp +
      Real.sin (H.lat lp.phi) * (laeaState H phi0 es).Q.qp := by
    rw [hqpR]
    exact hq1
  have hq1pos : (0 : ℝ) < q1 := by
    rw [hq1]
    have h15 : (0 : ℝ) < 1e-15 := by norm_num
    linarith
  have hsq : Real.sqrt q1 ^ 2 = q1 := Real.sq_sqrt hq1pos.le
  have hsqpos : 0 < Real.sqrt q1 := Real.sqrt_pos.mpr hq1pos
  have hfwd := laea_e_forward_spole_eval H lp (laeaState H phi0 es)
    (H.lat lp.phi) q1 hm rfl hq1P hg (by rw [hq1]; exact hq15)
  have hfwd2 : (laea_e_forward H lp (laeaState H phi0 es)).2 = false := by
    rw [hfwd]
  refine ⟨hfwd2, ?_⟩
  obtain ⟨x, hx⟩ : ∃ v : ℝ, v = Real.sqrt q1 * Real.sin lp.lam := ⟨_, rfl⟩
  obtain ⟨y, hy⟩ : ∃ v : ℝ, v = Real.cos lp.lam * Real.sqrt q1 := ⟨_, rfl⟩
  have hfwd1 : (laea_e_forward H lp (laeaState H phi0 es)).1 = ⟨x, y⟩ := by
    rw [hfwd, hx, hy]
  rw [hfwd1]
  have hqval : q1 = x * x + y * y := by
    rw [hx, hy]
    linear_combination
      (-(Real.sin lp.lam ^ 2) - Real.cos lp.lam ^ 2) * hsq -
        q1 * Real.sin_sq_add_cos_sq lp.lam
  have hqne : ¬ q1 = 0 := ne_of_gt hq1pos
  have hab : Real.sin (H.lat lp.phi) =
      -(1 - q1 / (laeaState H phi0 es).Q.qp) := by
    rw [hqpR, hq1]
    field_simp
  rw [laea_e_inverse_spole_eval H x y (laeaState H phi0 es) q1
    (Real.sin (H.lat lp.phi)) hm hqval hqne hab]
  rw [hx, hy]
  rw [show Real.cos lp.lam * Real.sqrt q1 =
    Real.sqrt q1 * Real.cos lp.lam by ring]
  rw [atan2_mul_sin_cos hsqpos hlam]
  rw [Real.arcsin_sin (by linarith [hxi.1]) (by linarith [hxi.2]), hinv]

lemma roundtrip_e_equit (H : AuthHelper) (phi0 es : ℝ) (lp : PJ_LP)
    (hes : es ≠ 0)
    (hcls : |phi0| < EPS10)
    (hqp : 0 < H.q 1.0)
    (hxi : H.lat lp.phi ∈ Set.Ioo (-(Real.pi / 2)) (Real.pi / 2))
    (hinv : H.latInv (H.lat lp.phi) = lp.phi)
    (hlam : lp.lam ∈ Set.Ioc (-Real.pi) Real.pi)
    (hfar : EPS10 ≤ 1 + Real.cos (H.lat lp.phi) * Real.cos lp.lam)
    (hnear : Real.cos (H.lat lp.phi) * Real.cos lp.lam ≤ 1 - EPS10)
    (hrhoH : EPS10 ≤ Real.sqrt (0.5 * H.q 1.0) *
      Real.sqrt (2 * (1 - Real.cos (H.lat lp.phi) * Real.cos lp.lam))) :
    (laea_e_forward H lp (laeaState H phi0 es)).2 = false ∧
    laea_e_inverse H (laea_e_forward H lp (laeaState H phi0 es)).1
      (laeaState H phi0 es) = (lp, false) := by
  have hR := laeaState_e_equit H hes hcls
  have hm : (laeaState H phi0 es).Q.mode = Mode.EQUIT := by rw [hR]
  obtain ⟨rq, hrq⟩ : ∃ v : ℝ, v = Real.sqrt (0.5 * H.q 1.0) := ⟨_, rfl⟩
  have hrqR : (laeaState H phi0 es).Q.rq = rq := by rw [hR]; exact hrq.symm
  have hddR : (laeaState H phi0 es).Q.dd = 1 / rq := by rw [hR, hrq]
  have hxmfR : (laeaState H phi0 es).Q.xmf = 1 := by rw [hR]
  have hymfR : (laeaState H phi0 es).Q.ymf = 0.5 * H.q 1.0 := by rw [hR]
  have hrqpos : 0 < rq := by
    rw [hrq]
    exact Real.sqrt_pos.mpr (by linarith)
  have hrqne : rq ≠ 0 := ne_of_gt hrqpos
  have hrq2 : rq ^ 2 = 0.5 * H.q 1.0 := by
    rw [hrq]
    exact Real.sq_sqrt (by linarith)
  have hcxi : 0 < Real.cos (H.lat lp.phi) :=
    Real.cos_pos_of_mem_Ioo ⟨hxi.1, hxi.2⟩
  obtain ⟨y0, hy0⟩ : ∃ v : ℝ,
      v = 1 + Real.cos (H.lat lp.phi) * Real.cos lp.lam := ⟨_, rfl⟩
  have hy0ge : EPS10 ≤ y0 := by rw [hy0]; exact hfar
  have hy0pos : 0 < y0 := lt_of_lt_of_le eps10_pos hy0ge
  have hy0lt : y0 ≤ 2 - EPS10 := by rw [hy0]; linarith
  have hgP : ¬ |y0| < EPS10 := by
    rw [abs_of_pos hy0pos]
    push_neg
    exact hy0ge
  have hfwd := laea_e_forward_equit_eval H lp (laeaState H phi0 es)
    (H.lat lp.phi) y0 hm rfl hy0 hgP
  rw [hxmfR, hymfR, one_mul] at hfwd
  have hfwd2 : (laea_e_forward H lp (laeaState H phi0 es)).2 = false := by
    rw [hfwd]
  refine ⟨hfwd2, ?_⟩
  obtain ⟨B, hB⟩ : ∃ v : ℝ, v = Real.sqrt (2 / y0) := ⟨_, rfl⟩
  have hB2 : B ^ 2 = 2 / y0 := by
    rw [hB]
    exact Real.sq_sqrt (le_of_lt (div_pos two_pos hy0pos))
  have hBpos : 0 < B := by
    rw [hB]
    exact Real.sqrt_pos.mpr (div_pos two_pos hy0pos)
  rw [← hB] at hfwd
  obtain ⟨x, hx⟩ : ∃ v : ℝ,
      v = B * Real.cos (H.lat lp.phi) * Real.sin lp.lam := ⟨_, rfl⟩
  obtain ⟨y, hy⟩ : ∃ v : ℝ,
      v = B * Real.sin (H.lat lp.phi) * (0.5 * H.q 1.0) := ⟨_, rfl⟩
  have hfwd1 : (laea_e_forward H lp (laeaState H phi0 es)).1 = ⟨x, y⟩ := by
    rw [hfwd, hx, hy]
  rw [hfwd1]
  -- descaled planar coordinates
  obtain ⟨x1, hx1⟩ : ∃ v : ℝ,
      v = rq * B * Real.cos (H.lat lp.phi) * Real.sin lp.lam := ⟨_, rfl⟩
  obtain ⟨y1, hy1⟩ : ∃ v : ℝ,
      v = rq * B * Real.sin (H.lat lp.phi) := ⟨_, rfl⟩
  have hx1P : x1 = x / (laeaState H phi0 es).Q.dd := by
    rw [hddR, hx1, hx]
    field_simp
    ring
  have hy1P : y1 = y * (laeaState H phi0 es).Q.dd := by
    rw [hddR, hy1, hy, mul_one_div]
    rw [show (0.5 : ℝ) * H.q 1.0 = rq ^ 2 from hrq2.symm]
    field_simp
    ring
  -- the radial distance
  obtain ⟨S, hS⟩ : ∃ v : ℝ, v = Real.sqrt (2 * (2 - y0)) := ⟨_, rfl⟩
  have hSconv : (2 : ℝ) * (2 - y0) =
      2 * (1 - Real.cos (H.lat lp.phi) * Real.cos lp.lam) := by
    rw [hy0]
    ring
  have hS2 : S ^ 2 = 2 * (2 - y0) := by
    rw [hS]
    exact Real.sq_sqrt (by linarith [eps10_pos])
  have hSpos : 0 < S := by
    rw [hS]
    exact Real.sqrt_pos.mpr (by linarith [eps10_pos])
  have hrhoval : EPS10 ≤ rq * S := by
    rw [hrq, hS, hSconv]
    exact hrhoH
  have hrhopos : 0 < rq * S := mul_pos hrqpos hSpos
  have hrhone : rq * S ≠ 0 := ne_of_gt hrhopos
  have hcy : Real.cos (H.lat lp.phi) * Real.cos lp.lam = y0 - 1 := by
    rw [hy0]
    ring
  have hsum : x1 * x1 + y1 * y1 = rq ^ 2 * (2 * (2 - y0)) := by
    have h2 := Real.sin_sq_add_cos_sq (H.lat lp.phi)
    have h3 := Real.sin_sq_add_cos_sq lp.lam
    have hxy : x1 * x1 + y1 * y1 = rq ^ 2 * (B ^ 2 *
        (1 - (Real.cos (H.lat lp.phi) * Real.cos lp.lam) ^ 2)) := by
      rw [hx1, hy1]
      linear_combination (rq ^ 2 * B ^ 2 * Real.cos (H.lat lp.phi) ^ 2) * h3 +
        (rq ^ 2 * B ^ 2) * h2
    rw [hxy, hB2, hcy]
    field_simp
    ring
  have hrhoP : rq * S = Real.sqrt (x1 * x1 + y1 * y1) := by
    rw [hsum, Real.sqrt_mul (sq_nonneg rq), Real.sqrt_sq hrqpos.le, ← hS]
  have hg1 : ¬ rq * S < EPS10 := not_lt.mpr hrhoval
  have hSle : S ≤ 2 := by
    rw [hS]
    exact sqrt_le_of_le_sq (by norm_num) (by norm_num; linarith)
  have hhalf : 0.5 * (rq * S) / (laeaState H phi0 es).Q.rq = 0.5 * S := by
    rw [hrqR]
    field_simp
    ring
  have hg2 : ¬ 1 < 0.5 * (rq * S) / (laeaState H phi0 es).Q.rq := by
    rw [hhalf]
    push_neg
    linarith
  have hceP : 2 * Real.arcsin (0.5 * S) =
      2 * Real.arcsin (0.5 * (rq * S) / (laeaState H phi0 es).Q.rq) := by
    rw [hhalf]
  -- trig of the recovered angular distance
  obtain ⟨hsz, hcz⟩ := sin_cos_two_arcsin
    (show -1 ≤ 0.5 * S by linarith) (show 0.5 * S ≤ 1 by linarith)
  have ht2 : 1 - (0.5 * S) ^ 2 = y0 / 2 := by
    linear_combination (-(1 : ℝ) / 4) * hS2
  have hsinz : Real.sin (2 * Real.arcsin (0.5 * S)) =
      S * Real.sqrt (y0 / 2) := by
    rw [hsz, ht2]
    ring
  have hcosz : Real.cos (2 * Real.arcsin (0.5 * S)) = y0 - 1 := by
    rw [hcz]
    linear_combination (-(1 : ℝ) / 2) * hS2
  have hB1 : B * Real.sqrt (y0 / 2) = 1 := by
    rw [hB]
    exact sqrt_two_div_mul_sqrt_div_two hy0pos
  -- the latitude argument collapses to sin xi
  have hab : Real.sin (H.lat lp.phi) =
      y1 * Real.sin (2 * Real.arcsin (0.5 * S)) / (rq * S) := by
    rw [hsinz, hy1]
    rw [show rq * B * Real.sin (H.lat lp.phi) * (S * Real.sqrt (y0 / 2)) /
        (rq * S) = Real.sin (H.lat lp.phi) * (B * Real.sqrt (y0 / 2)) from by
      field_simp
      ring]
    rw [hB1, mul_one]
  have hx2 : (rq * S * Real.cos (H.lat lp.phi)) * Real.sin lp.lam =
      x1 * Real.sin (2 * Real.arcsin (0.5 * S)) := by
    rw [hx1, hsinz]
    linear_combination
      (-(rq * S * Real.cos (H.lat lp.phi)) * Real.sin lp.lam) * hB1
  have hy2 : (rq * S * Real.cos (H.lat lp.phi)) * Real.cos lp.lam =
      (rq * S) * Real.cos (2 * Real.arcsin (0.5 * S)) := by
    rw [hcosz, ← hcy]
    ring
  have hr3 : 0 < rq * S * Real.cos (H.lat lp.phi) := mul_pos hrhopos hcxi
  rw [laea_e_inverse_equit_eval H x y (laeaState H phi0 es)
    x1 y1 (rq * S) (2 * Real.arcsin (0.5 * S)) (Real.sin (H.lat lp.phi))
    ((rq * S * Real.cos (H.lat lp.phi)) * Real.sin lp.lam)
    ((rq * S * Real.cos (H.lat lp.phi)) * Real.cos lp.lam)
    hm hx1P hy1P hrhoP hg1 hg2 hceP hab hx2 hy2]
  rw [atan2_mul_sin_cos hr3 hlam]
  rw [Real.arcsin_sin (by linarith [hxi.1]) (by linarith [hxi.2]), hinv]

set_option maxHeartbeats 1600000 in
lemma roundtrip_e_obliq (H : AuthHelper) (phi0 es : ℝ) (lp : PJ_LP)
    (hes0 : 0 < es) (hes1 : es < 1)
    (hcls1 : EPS10 ≤ |phi0|) (hcls2 : EPS10 ≤ |(|phi0|) - M_HALFPI|)
    (hphi0 : |phi0| < Real.pi / 2)
    (hqp : 0 < H.q 1.0)
    (hb1 : H.lat phi0 ∈ Set.Ioo (-(Real.pi / 2)) (Real.pi / 2))
    (hxi : H.lat lp.phi ∈ Set.Ioo (-(Real.pi / 2)) (Real.pi / 2))
    (hinv : H.latInv (H.lat lp.phi) = lp.phi)
    (hlam : lp.lam ∈ Set.Ioc (-Real.pi) Real.pi)
    (hfar : EPS10 ≤ 1 + Real.sin (H.lat phi0) * Real.sin (H.lat lp.phi) +
      Real.cos (H.lat phi0) * Real.cos (H.lat lp.phi) * Real.cos lp.lam)
    (hnear : Real.sin (H.lat phi0) * Real.sin (H.lat lp.phi) +
      Real.cos (H.lat phi0) * Real.cos (H.lat lp.phi) * Real.cos lp.lam ≤
        1 - EPS10)
    (hrhoH : EPS10 ≤ Real.sqrt (0.5 * H.q 1.0) *
      Real.sqrt (2 * (1 - (Real.sin (H.lat phi0) * Real.sin (H.lat lp.phi) +
        Real.cos (H.lat phi0) * Real.cos (H.lat lp.phi) * Real.cos lp.lam)))) :
    (laea_e_forward H lp (laeaState H phi0 es)).2 = false ∧
    laea_e_inverse H (laea_e_forward H lp (laeaState H phi0 es)).1
      (laeaState H phi0 es) = (lp, false) := by
  have hes : es ≠ 0 := ne_of_gt hes0
  have hR := laeaState_e_obliq H hes hcls1 hcls2
  have hm : (laeaState H phi0 es).Q.mode = Mode.OBLIQ := by rw [hR]
  obtain ⟨s1, hs1v⟩ : ∃ v : ℝ, v = Real.sin (H.lat phi0) := ⟨_, rfl⟩
  obtain ⟨c1, hc1v⟩ : ∃ v : ℝ, v = Real.cos (H.lat phi0) := ⟨_, rfl⟩
  obtain ⟨sp, hspv⟩ : ∃ v : ℝ, v = Real.sin (H.lat lp.phi) := ⟨_, rfl⟩
  obtain ⟨cp, hcpv⟩ : ∃ v : ℝ, v = Real.cos (H.lat lp.phi) := ⟨_, rfl⟩
  obtain ⟨sl, hslv⟩ : ∃ v : ℝ, v = Real.sin lp.lam := ⟨_, rfl⟩
  obtain ⟨cl, hclv⟩ : ∃ v : ℝ, v = Real.cos lp.lam := ⟨_, rfl⟩
  have h1 : s1 ^ 2 + c1 ^ 2 = 1 := by
    rw [hs1v, hc1v]
    exact Real.sin_sq_add_cos_sq (H.lat phi0)
  have h2 : sp ^ 2 + cp ^ 2 = 1 := by
    rw [hspv, hcpv]
    exact Real.sin_sq_add_cos_sq (H.lat lp.phi)
  have h3 : sl ^ 2 + cl ^ 2 = 1 := by
    rw [hslv, hclv]
    exact Real.sin_sq_add_cos_sq lp.lam
  have hs1R : (laeaState H phi0 es).Q.sinb1 = s1 := by rw [hR, hs1v]
  have hc1R : (laeaState H phi0 es).Q.cosb1 = c1 := by rw [hR, hc1v]
  obtain ⟨rq, hrq⟩ : ∃ v : ℝ, v = Real.sqrt (0.5 * H.q 1.0) := ⟨_, rfl⟩
  have hrqR : (laeaState H phi0 es).Q.rq = rq := by rw [hR]; exact hrq.symm
  have hrqpos : 0 < rq := by
    rw [hrq]
    exact Real.sqrt_pos.mpr (by linarith)
  have hrqne : rq ≠ 0 := ne_of_gt hrqpos
  obtain ⟨dd, hdd⟩ : ∃ v : ℝ, v = Real.cos phi0 /
      (Real.sqrt (1 - es * Real.sin phi0 * Real.sin phi0) *
        Real.sqrt (0.5 * H.q 1.0) * Real.cos (H.lat phi0)) := ⟨_, rfl⟩
  have hddR : (laeaState H phi0 es).Q.dd = dd := by rw [hR]; exact hdd.symm
  have hxmfR : (laeaState H phi0 es).Q.xmf = rq * dd := by rw [hR, hrq, hdd]
  have hymfR : (laeaState H phi0 es).Q.ymf = rq / dd := by rw [hR, hrq, hdd]
  have habs0 := abs_lt.mp hphi0
  have hcphi0 : 0 < Real.cos phi0 := Real.cos_pos_of_mem_Ioo ⟨habs0.1, habs0.2⟩
  have hc1pos : 0 < c1 := by
    rw [hc1v]
    exact Real.cos_pos_of_mem_Ioo ⟨hb1.1, hb1.2⟩
  have hcppos : 0 < cp := by
    rw [hcpv]
    exact Real.cos_pos_of_mem_Ioo ⟨hxi.1, hxi.2⟩
  have hsin2lt : es * Real.sin phi0 * Real.sin phi0 < 1 := by
    nlinarith [Real.sin_sq_add_cos_sq phi0, sq_nonneg (Real.cos phi0),
      sq_nonneg (Real.sin phi0)]
  have hsqrtes : 0 < Real.sqrt (1 - es * Real.sin phi0 * Real.sin phi0) :=
    Real.sqrt_pos.mpr (by linarith)
  have hddpos : 0 < dd := by
    rw [hdd, ← hrq, ← hc1v]
    exact div_pos hcphi0 (mul_pos (mul_pos hsqrtes hrqpos) hc1pos)
  have hddne : dd ≠ 0 := ne_of_gt hddpos
  -- forward
  obtain ⟨y0, hy0⟩ : ∃ v : ℝ, v = 1 + s1 * sp + c1 * cp * cl := ⟨_, rfl⟩
  have hy0H : y0 = 1 + Real.sin (H.lat phi0) * Real.sin (H.lat lp.phi) +
      Real.cos (H.lat phi0) * Real.cos (H.lat lp.phi) * Real.cos lp.lam := by
    rw [hy0, hs1v, hc1v, hspv, hcpv, hclv]
  have hy0ge : EPS10 ≤ y0 := by rw [hy0H]; exact hfar
  have hy0pos : 0 < y0 := lt_of_lt_of_le eps10_pos hy0ge
  have hy0lt : y0 ≤ 2 - EPS10 := by
    rw [hy0H]
    linarith
  have hy0P : y0 = 1 + (laeaState H phi0 es).Q.sinb1 * Real.sin (H.lat lp.phi) +
      (laeaState H phi0 es).Q.cosb1 * Real.cos (H.lat lp.phi) *
        Real.cos lp.lam := by
    rw [hs1R, hc1R, hy0, hspv, hcpv, hclv]
  have hgP : ¬ |y0| < EPS10 := by
    rw [abs_of_pos hy0pos]
    push_neg
    exact hy0ge
  have hfwd := laea_e_forward_obliq_eval H lp (laeaState H phi0 es)
    (H.lat lp.phi) y0 hm rfl hy0P hgP
  rw [hs1R, hc1R, hxmfR, hymfR, ← hspv, ← hcpv, ← hslv, ← hclv] at hfwd
  obtain ⟨B, hB⟩ : ∃ v : ℝ, v = Real.sqrt (2 / y0) := ⟨_, rfl⟩
  have hB2 : B ^ 2 = 2 / y0 := by
    rw [hB]
    exact Real.sq_sqrt (le_of_lt (div_pos two_pos hy0pos))
  have hBpos : 0 < B := by
    rw [hB]
    exact Real.sqrt_pos.mpr (div_pos two_pos hy0pos)
  rw [← hB] at hfwd
  have hfwd2 : (laea_e_forward H lp (laeaState H phi0 es)).2 = false := by
    rw [hfwd]
  refine ⟨hfwd2, ?_⟩
  obtain ⟨x, hx⟩ : ∃ v : ℝ, v = rq * dd * B * cp * sl := ⟨_, rfl⟩
  obtain ⟨y, hy⟩ : ∃ v : ℝ, v = rq / dd * B * (c1 * sp - s1 * cp * cl) :=
    ⟨_, rfl⟩
  have hfwd1 : (laea_e_forward H lp (laeaState H phi0 es)).1 = ⟨x, y⟩ := by
    rw [hfwd, hx, hy]
  rw [hfwd1]
  obtain ⟨x1, hx1⟩ : ∃ v : ℝ, v = rq * B * cp * sl := ⟨_, rfl⟩
  obtain ⟨y1, hy1⟩ : ∃ v : ℝ, v = rq * B * (c1 * sp - s1 * cp * cl) :=
    ⟨_, rfl⟩
  have hx1P : x1 = x / (laeaState H phi0 es).Q.dd := by
    rw [hddR, hx1, hx]
    field_simp
    ring
  have hy1P : y1 = y * (laeaState H phi0 es).Q.dd := by
    rw [hddR, hy1, hy]
    field_simp
  obtain ⟨S, hS⟩ : ∃ v : ℝ, v = Real.sqrt (2 * (2 - y0)) := ⟨_, rfl⟩
  have hSconv : (2 : ℝ) * (2 - y0) =
      2 * (1 - (Real.sin (H.lat phi0) * Real.sin (H.lat lp.phi) +
        Real.cos (H.lat phi0) * Real.cos (H.lat lp.phi) * Real.cos lp.lam)) := by
    rw [hy0H]
    ring
  have hS2 : S ^ 2 = 2 * (2 - y0) := by
    rw [hS]
    exact Real.sq_sqrt (by linarith [eps10_pos])
  have hSpos : 0 < S := by
    rw [hS]
    exact Real.sqrt_pos.mpr (by linarith [eps10_pos])
  have hrhoval : EPS10 ≤ rq * S := by
    rw [hrq, hS, hSconv]
    exact hrhoH
  have hrhopos : 0 < rq * S := mul_pos hrqpos hSpos
  have hcy : s1 * sp + c1 * cp * cl = y0 - 1 := by rw [hy0]; ring
  have hsum : x1 * x1 + y1 * y1 = rq ^ 2 * (2 * (2 - y0)) := by
    have hxy : x1 * x1 + y1 * y1 = rq ^ 2 * (B ^ 2 *
        ((cp * sl) ^ 2 + (c1 * sp - s1 * cp * cl) ^ 2)) := by
      rw [hx1, hy1]
      ring
    rw [hxy, obliq_norm_sq h1 h2 h3, hcy, hB2]
    field_simp
    ring
  have hrhoP : rq * S = Real.sqrt (x1 * x1 + y1 * y1) := by
    rw [hsum, Real.sqrt_mul (sq_nonneg rq), Real.sqrt_sq hrqpos.le, ← hS]
  have hg1 : ¬ rq * S < EPS10 := not_lt.mpr hrhoval
  have hSle : S ≤ 2 := by
    rw [hS]
    exact sqrt_le_of_le_sq (by norm_num) (by norm_num; linarith)
  have hhalf : 0.5 * (rq * S) / (laeaState H phi0 es).Q.rq = 0.5 * S := by
    rw [hrqR]
    field_simp
    ring
  have hg2 : ¬ 1 < 0.5 * (rq * S) / (laeaState H phi0 es).Q.rq := by
    rw [hhalf]
    push_neg
    linarith
  have hceP : 2 * Real.arcsin (0.5 * S) =
      2 * Real.arcsin (0.5 * (rq * S) / (laeaState H phi0 es).Q.rq) := by
    rw [hhalf]
  obtain ⟨hsz, hcz⟩ := sin_cos_two_arcsin
    (show -1 ≤ 0.5 * S by linarith) (show 0.5 * S ≤ 1 by linarith)
  have ht2 : 1 - (0.5 * S) ^ 2 = y0 / 2 := by
    linear_combination (-(1 : ℝ) / 4) * hS2
  have hsinz : Real.sin (2 * Real.arcsin (0.5 * S)) =
      S * Real.sqrt (y0 / 2) := by
    rw [hsz, ht2]
    ring
  have hcosz : Real.cos (2 * Real.arcsin (0.5 * S)) = y0 - 1 := by
    rw [hcz]
    linear_combination (-(1 : ℝ) / 2) * hS2
  have hB1 : B * Real.sqrt (y0 / 2) = 1 := by
    rw [hB]
    exact sqrt_two_div_mul_sqrt_div_two hy0pos
  have habVal : Real.cos (2 * Real.arcsin (0.5 * S)) * s1 +
      y1 * Real.sin (2 * Real.arcsin (0.5 * S)) * c1 / (rq * S) = sp := by
    rw [hcosz, hy1, hsinz]
    rw [show rq * B * (c1 * sp - s1 * cp * cl) * (S * Real.sqrt (y0 / 2)) *
        c1 / (rq * S) =
        (c1 * sp - s1 * cp * cl) * c1 * (B * Real.sqrt (y0 / 2)) from by
      field_simp
      ring]
    rw [hB1, mul_one,
      show (y0 - 1 : ℝ) = s1 * sp + c1 * cp * cl from by rw [hy0]; ring]
    exact obliq_lat_recovery h1
  have habP : sp = Real.cos (2 * Real.arcsin (0.5 * S)) *
      (laeaState H phi0 es).Q.sinb1 +
      y1 * Real.sin (2 * Real.arcsin (0.5 * S)) *
        (laeaState H phi0 es).Q.cosb1 / (rq * S) := by
    rw [hs1R, hc1R]
    exact habVal.symm
  have hx2P : (rq * S * cp) * sl =
      x1 * Real.sin (2 * Real.arcsin (0.5 * S)) := by
    rw [hx1, hsinz]
    linear_combination (-(rq * S * cp * sl)) * hB1
  have hy2P : (rq * S * cp) * cl =
      rq * S * (laeaState H phi0 es).Q.cosb1 *
        Real.cos (2 * Real.arcsin (0.5 * S)) -
      y1 * (laeaState H phi0 es).Q.sinb1 *
        Real.sin (2 * Real.arcsin (0.5 * S)) := by
    rw [hs1R, hc1R, hcosz, hy1, hsinz]
    rw [show (y0 - 1 : ℝ) = s1 * sp + c1 * cp * cl from by rw [hy0]; ring]
    linear_combination (rq * S * s1 * (c1 * sp - s1 * cp * cl)) * hB1 -
      (rq * S * cp * cl) * h1
  have hr3 : 0 < rq * S * cp := mul_pos hrhopos hcppos
  rw [laea_e_inverse_obliq_eval H x y (laeaState H phi0 es)
    x1 y1 (rq * S) (2 * Real.arcsin (0.5 * S)) sp
    ((rq * S * cp) * sl) ((rq * S * cp) * cl)
    hm hx1P hy1P hrhoP hg1 hg2 hceP habP hx2P hy2P]
  rw [hslv, hclv]
  rw [atan2_mul_sin_cos hr3 hlam]
  rw [hspv, Real.arcsin_sin (by linarith [hxi.1]) (by linarith [hxi.2]), hinv]

/- ------------------------------------------------------------------ -/
/- Round-trip lemmas, spherical polar modes                           -/
/- ------------------------------------------------------------------ -/

lemma roundtrip_s_npole (H : AuthHelper) (phi0 : ℝ) (lp : PJ_LP)
    (hcls : |phi0 - M_HALFPI| < EPS10)
    (hphi1 : -(Real.pi / 2) ≤ lp.phi) (hphi2 : lp.phi < Real.pi / 2)
    (hguard : ¬ |lp.phi + phi0| < EPS10)
    (hlam : lp.lam ∈ Set.Ioc (-Real.pi) Real.pi) :
    (laea_s_forward lp (laeaState H phi0 0)).2 = false ∧
    laea_s_inverse (laea_s_forward lp (laeaState H phi0 0)).1
      (laeaState H phi0 0) = (lp, false) := by
  have hR := laeaState_s_npole H hcls
  have hm : (laeaState H phi0 0).Q.mode = Mode.N_POLE := by rw [hR]
  have hphi0R : (laeaState H phi0 0).phi0 = phi0 := by rw [hR]
  have hpi := Real.pi_pos
  obtain ⟨t, ht⟩ : ∃ t : ℝ, t = M_FORTPI - lp.phi * 0.5 := ⟨_, rfl⟩
  have ht_pos : 0 < t := by
    rw [ht]
    unfold M_FORTPI
    linarith
  have ht_le : t ≤ Real.pi / 2 := by
    rw [ht]
    unfold M_FORTPI
    linarith
  have hsin_pos : 0 < Real.sin t :=
    Real.sin_pos_of_pos_of_lt_pi ht_pos (by linarith)
  have hguard2 : ¬ |lp.phi + (laeaState H phi0 0).phi0| < EPS10 := by
    rw [hphi0R]
    exact hguard
  have hfwd := laea_s_forward_npole_eval lp (laeaState H phi0 0) t hm hguard2 ht
  have hfwd2 : (laea_s_forward lp (laeaState H phi0 0)).2 = false := by
    rw [hfwd]
  refine ⟨hfwd2, ?_⟩
  have hfwd1 : (laea_s_forward lp (laeaState H phi0 0)).1 =
      ⟨2 * Real.sin t * Real.sin lp.lam, 2 * Real.sin t * -Real.cos lp.lam⟩ := by
    rw [hfwd]
  rw [hfwd1]
  obtain ⟨x, hx⟩ : ∃ x : ℝ, x = 2 * Real.sin t * Real.sin lp.lam := ⟨_, rfl⟩
  obtain ⟨y, hy⟩ : ∃ y : ℝ, y = 2 * Real.sin t * -Real.cos lp.lam := ⟨_, rfl⟩
  rw [← hx, ← hy]
  have hrh_eq : Real.sqrt (x * x + y * y) = 2 * Real.sin t := by
    have hA : x * x + y * y = (2 * Real.sin t) ^ 2 := by
      rw [hx, hy]
      linear_combination (4 * Real.sin t ^ 2) * Real.sin_sq_add_cos_sq lp.lam
    rw [hA]
    exact Real.sqrt_sq (by linarith)
  have hg1 : ¬ 1 < 2 * Real.sin t * 0.5 := by
    rw [show 2 * Real.sin t * 0.5 = Real.sin t by ring]
    exact not_lt.mpr (Real.sin_le_one _)
  rw [laea_s_inverse_npole_eval x y (laeaState H phi0 0) (2 * Real.sin t)
    (2 * Real.arcsin (2 * Real.sin t * 0.5)) hm hrh_eq.symm hg1 rfl]
  have hz_eq : 2 * Real.arcsin (2 * Real.sin t * 0.5) = 2 * t := by
    rw [show 2 * Real.sin t * 0.5 = Real.sin t by ring,
      Real.arcsin_sin (by linarith) (by linarith)]
  rw [hz_eq]
  rw [hx, hy]
  rw [show -(2 * Real.sin t * -Real.cos lp.lam) =
    2 * Real.sin t * Real.cos lp.lam by ring]
  rw [atan2_mul_sin_cos (by linarith) hlam]
  rw [show M_HALFPI - 2 * t = lp.phi by rw [ht]; unfold M_HALFPI M_FORTPI; ring]

lemma roundtrip_s_spole (H : AuthHelper) (phi0 : ℝ) (lp : PJ_LP)
    (hcls : |phi0 + M_HALFPI| < EPS10)
    (hphi1 : -(Real.pi / 2) < lp.phi) (hphi2 : lp.phi ≤ Real.pi / 2)
    (hguard : ¬ |lp.phi + phi0| < EPS10)
    (hlam : lp.lam ∈ Set.Ioc (-Real.pi) Real.pi) :
    (laea_s_forward lp (laeaState H phi0 0)).2 = false ∧
    laea_s_inverse (laea_s_forward lp (laeaState H phi0 0)).1
      (laeaState H phi0 0) = (lp, false) := by
  have hR := laeaState_s_spole H hcls
  have hm : (laeaState H phi0 0).Q.mode = Mode.S_POLE := by rw [hR]
  have hphi0R : (laeaState H phi0 0).phi0 = phi0 := by rw [hR]
  have hpi := Real.pi_pos
  obtain ⟨t, ht⟩ : ∃ t : ℝ, t = M_FORTPI - lp.phi * 0.5 := ⟨_, rfl⟩
  have ht_nonneg : 0 ≤ t := by
    rw [ht]
    unfold M_FORTPI
    linarith
  have ht_lt : t < Real.pi / 2 := by
    rw [ht]
    unfold M_FORTPI
    linarith
  have hcos_pos : 0 < Real.cos t :=
    Real.cos_pos_of_mem_Ioo ⟨by linarith, ht_lt⟩
  have hguard2 : ¬ |lp.phi + (laeaState H phi0 0).phi0| < EPS10 := by
    rw [hphi0R]
    exact hguard
  have hfwd := laea_s_forward_spole_eval lp (laeaState H phi0 0) t hm hguard2 ht
  have hfwd2 : (laea_s_forward lp (laeaState H phi0 0)).2 = false := by
    rw [hfwd]
  refine ⟨hfwd2, ?_⟩
  have hfwd1 : (laea_s_forward lp (laeaState H phi0 0)).1 =
      ⟨2 * Real.cos t * Real.sin lp.lam, 2 * Real.cos t * Real.cos lp.lam⟩ := by
    rw [hfwd]
  rw [hfwd1]
  obtain ⟨x, hx⟩ : ∃ x : ℝ, x = 2 * Real.cos t * Real.sin lp.lam := ⟨_, rfl⟩
  obtain ⟨y, hy⟩ : ∃ y : ℝ, y = 2 * Real.cos t * Real.cos lp.lam := ⟨_, rfl⟩
  rw [← hx, ← hy]
  have hrh_eq : Real.sqrt (x * x + y * y) = 2 * Real.cos t := by
    have hA : x * x + y * y = (2 * Real.cos t) ^ 2 := by
      rw [hx, hy]
      linear_combination (4 * Real.cos t ^ 2) * Real.sin_sq_add_cos_sq lp.lam
    rw [hA]
    exact Real.sqrt_sq (by linarith)
  have hg1 : ¬ 1 < 2 * Real.cos t * 0.5 := by
    rw [show 2 * Real.cos t * 0.5 = Real.cos t by ring]
    exact not_lt.mpr (Real.cos_le_one _)
  rw [laea_s_inverse_spole_eval x y (laeaState H phi0 0) (2 * Real.cos t)
    (2 * Real.arcsin (2 * Real.cos t * 0.5)) hm hrh_eq.symm hg1 rfl]
  have hz_eq : 2 * Real.arcsin (2 * Real.cos t * 0.5) =
      2 * (Real.pi / 2 - t) := by
    rw [show 2 * Real.cos t * 0.5 = Real.cos t by ring,
      ← Real.sin_pi_div_two_sub,
      Real.arcsin_sin (by linarith) (by linarith)]
  rw [hz_eq]
  rw [hx, hy]
  rw [atan2_mul_sin_cos (by linarith) hlam]
  rw [show 2 * (Real.pi / 2 - t) - M_HALFPI = lp.phi by
    rw [ht]; unfold M_HALFPI M_FORTPI; ring]

lemma roundtrip_s_equit (H : AuthHelper) (phi0 : ℝ) (lp : PJ_LP)
    (hcls : |phi0| < EPS10)
    (hphi : |lp.phi| < Real.pi / 2)
    (hlam : lp.lam ∈ Set.Ioc (-Real.pi) Real.pi)
    (hcl : Real.cos lp.lam ≠ 0)
    (hfar : EPS10 < 1 + Real.cos lp.phi * Real.cos lp.lam)
    (hnear : Real.cos lp.phi * Real.cos lp.lam ≤ 1 - EPS10) :
    (laea_s_forward lp (laeaState H phi0 0)).2 = false ∧
    laea_s_inverse (laea_s_forward lp (laeaState H phi0 0)).1
      (laeaState H phi0 0) = (lp, false) := by
  have hR := laeaState_s_equit H hcls
  have hm : (laeaState H phi0 0).Q.mode = Mode.EQUIT := by rw [hR]
  have hpi := Real.pi_pos
  have habs := abs_lt.mp hphi
  have hcp : 0 < Real.cos lp.phi := Real.cos_pos_of_mem_Ioo ⟨habs.1, habs.2⟩
  have heps2 : (EPS10 : ℝ) < 2 := by norm_num [EPS10]
  obtain ⟨y0, hy0⟩ : ∃ v : ℝ, v = 1 + Real.cos lp.phi * Real.cos lp.lam :=
    ⟨_, rfl⟩
  have hy0gt : EPS10 < y0 := by rw [hy0]; exact hfar
  have hy0pos : 0 < y0 := lt_trans eps10_pos hy0gt
  have hy0lt : y0 ≤ 2 - EPS10 := by rw [hy0]; linarith
  have hfwd := laea_s_forward_equit_eval lp (laeaState H phi0 0) y0 hm hy0
    (not_le.mpr hy0gt)
  obtain ⟨B, hB⟩ : ∃ v : ℝ, v = Real.sqrt (2 / y0) := ⟨_, rfl⟩
  have hB2 : B ^ 2 = 2 / y0 := by
    rw [hB]
    exact Real.sq_sqrt (le_of_lt (div_pos two_pos hy0pos))
  have hBpos : 0 < B := by
    rw [hB]
    exact Real.sqrt_pos.mpr (div_pos two_pos hy0pos)
  obtain ⟨x, hx⟩ : ∃ v : ℝ, v = B * Real.cos lp.phi * Real.sin lp.lam :=
    ⟨_, rfl⟩
  obtain ⟨y, hy⟩ : ∃ v : ℝ, v = B * Real.sin lp.phi := ⟨_, rfl⟩
  have hfwd1 : (laea_s_forward lp (laeaState H phi0 0)).1 = ⟨x, y⟩ := by
    rw [hfwd, hx, hy, hB]
  have hfwd2 : (laea_s_forward lp (laeaState H phi0 0)).2 = false := by
    rw [hfwd]
  refine ⟨hfwd2, ?_⟩
  rw [hfwd1]
  have hcy : Real.cos lp.phi * Real.cos lp.lam = y0 - 1 := by rw [hy0]; ring
  have hA : x * x + y * y = 2 * (2 - y0) := by
    have h1 := Real.sin_sq_add_cos_sq lp.lam
    have h2 := Real.sin_sq_add_cos_sq lp.phi
    have hxy : x * x + y * y =
        B ^ 2 * (1 - (Real.cos lp.phi * Real.cos lp.lam) ^ 2) := by
      rw [hx, hy]
      linear_combination (B ^ 2 * Real.cos lp.phi ^ 2) * h1 + B ^ 2 * h2
    rw [hxy, hB2, hcy]
    field_simp
    ring
  obtain ⟨rh, hrh⟩ : ∃ v : ℝ, v = Real.sqrt (2 * (2 - y0)) := ⟨_, rfl⟩
  have hrhA : rh = Real.sqrt (x * x + y * y) := by rw [hA, hrh]
  have hu : EPS10 ≤ 2 - y0 := by linarith
  have hrheps : EPS10 < rh := by
    rw [hrh]
    exact lt_sqrt_of_sq_lt eps10_pos.le (eps10_sq_lt_two_mul hu)
  have hrhpos : 0 < rh := lt_trans eps10_pos hrheps
  have hrhle : rh ≤ 2 := by
    rw [hrh]
    exact sqrt_le_of_le_sq (by norm_num) (by norm_num; linarith)
  have hrh2 : rh ^ 2 = 2 * (2 - y0) := by
    rw [hrh]
    exact Real.sq_sqrt (by linarith [eps10_pos])
  have hg1 : ¬ 1 < rh * 0.5 := by push_neg; linarith
  have hg2 : ¬ |rh| ≤ EPS10 := by
    rw [abs_of_pos hrhpos]
    push_neg
    exact hrheps
  obtain ⟨hsz, hcz⟩ := sin_cos_two_arcsin
    (show -1 ≤ rh * 0.5 by linarith) (show rh * 0.5 ≤ 1 by linarith)
  have ht2 : 1 - (rh * 0.5) ^ 2 = y0 / 2 := by
    linear_combination (-(1 : ℝ) / 4) * hrh2
  have hsinz : Real.sin (2 * Real.arcsin (rh * 0.5)) =
      rh * Real.sqrt (y0 / 2) := by
    rw [hsz, ht2]
    ring
  have hcosz : Real.cos (2 * Real.arcsin (rh * 0.5)) = y0 - 1 := by
    rw [hcz]
    linear_combination (-(1 : ℝ) / 2) * hrh2
  have hB1 : B * Real.sqrt (y0 / 2) = 1 := by
    rw [hB]
    exact sqrt_two_div_mul_sqrt_div_two hy0pos
  have hphi_eq : lp.phi =
      Real.arcsin (y * Real.sin (2 * Real.arcsin (rh * 0.5)) / rh) := by
    rw [hsinz, hy]
    rw [show B * Real.sin lp.phi * (rh * Real.sqrt (y0 / 2)) / rh =
        Real.sin lp.phi * (B * Real.sqrt (y0 / 2)) from by
      field_simp
      ring]
    rw [hB1, mul_one, Real.arcsin_sin (by linarith) (by linarith)]
  have hx2_eq : x * Real.sin (2 * Real.arcsin (rh * 0.5)) =
      rh * Real.cos lp.phi * Real.sin lp.lam := by
    rw [hx, hsinz]
    linear_combination (rh * Real.cos lp.phi * Real.sin lp.lam) * hB1
  have hy2_eq : Real.cos (2 * Real.arcsin (rh * 0.5)) * rh =
      rh * Real.cos lp.phi * Real.cos lp.lam := by
    rw [hcosz, ← hcy]
    ring
  have hrcp : 0 < rh * Real.cos lp.phi := mul_pos hrhpos hcp
  have hy2ne : rh * Real.cos lp.phi * Real.cos lp.lam ≠ 0 :=
    mul_ne_zero (ne_of_gt hrcp) hcl
  rw [laea_s_inverse_equit_eval x y (laeaState H phi0 0) rh
    (2 * Real.arcsin (rh * 0.5)) lp.phi
    (rh * Real.cos lp.phi * Real.sin lp.lam)
    (rh * Real.cos lp.phi * Real.cos lp.lam)
    hm hrhA hg1 rfl hg2 hphi_eq hx2_eq.symm hy2_eq.symm hy2ne]
  rw [atan2_mul_sin_cos hrcp hlam]

lemma roundtrip_s_obliq (H : AuthHelper) (phi0 : ℝ) (lp : PJ_LP)
    (hcls1 : EPS10 ≤ |phi0|) (hcls2 : EPS10 ≤ |(|phi0|) - M_HALFPI|)
    (hphi0 : |phi0| < Real.pi / 2)
    (hphi : |lp.phi| < Real.pi / 2)
    (hlam : lp.lam ∈ Set.Ioc (-Real.pi) Real.pi)
    (hcl : Real.cos lp.lam ≠ 0)
    (hfar : EPS10 < 1 + Real.sin phi0 * Real.sin lp.phi +
      Real.cos phi0 * Real.cos lp.phi * Real.cos lp.lam)
    (hnear : Real.sin phi0 * Real.sin lp.phi +
      Real.cos phi0 * Real.cos lp.phi * Real.cos lp.lam ≤ 1 - EPS10) :
    (laea_s_forward lp (laeaState H phi0 0)).2 = false ∧
    laea_s_inverse (laea_s_forward lp (laeaState H phi0 0)).1
      (laeaState H phi0 0) = (lp, false) := by
  have hR := laeaState_s_obliq H hcls1 hcls2
  have hm : (laeaState H phi0 0).Q.mode = Mode.OBLIQ := by rw [hR]
  have hs1 : (laeaState H phi0 0).Q.sinb1 = Real.sin phi0 := by rw [hR]
  have hc1 : (laeaState H phi0 0).Q.cosb1 = Real.cos phi0 := by rw [hR]
  have hpi := Real.pi_pos
  have habs := abs_lt.mp hphi
  have habs0 := abs_lt.mp hphi0
  have hcp : 0 < Real.cos lp.phi := Real.cos_pos_of_mem_Ioo ⟨habs.1, habs.2⟩
  have hc1pos : 0 < Real.cos phi0 := Real.cos_pos_of_mem_Ioo ⟨habs0.1, habs0.2⟩
  obtain ⟨y0, hy0⟩ : ∃ v : ℝ, v = 1 + Real.sin phi0 * Real.sin lp.phi +
      Real.cos phi0 * Real.cos lp.phi * Real.cos lp.lam := ⟨_, rfl⟩
  have hy0gt : EPS10 < y0 := by rw [hy0]; exact hfar
  have hy0pos : 0 < y0 := lt_trans eps10_pos hy0gt
  have hy0lt : y0 ≤ 2 - EPS10 := by rw [hy0]; linarith
  have hy0P : y0 = 1 + (laeaState H phi0 0).Q.sinb1 * Real.sin lp.phi +
      (laeaState H phi0 0).Q.cosb1 * Real.cos lp.phi * Real.cos lp.lam := by
    rw [hs1, hc1]
    exact hy0
  have hfwd := laea_s_forward_obliq_eval lp (laeaState H phi0 0) y0 hm hy0P
    (not_le.mpr hy0gt)
  rw [hs1, hc1] at hfwd
  obtain ⟨B, hB⟩ : ∃ v : ℝ, v = Real.sqrt (2 / y0) := ⟨_, rfl⟩
  have hB2 : B ^ 2 = 2 / y0 := by
    rw [hB]
    exact Real.sq_sqrt (le_of_lt (div_pos two_pos hy0pos))
  have hBpos : 0 < B := by
    rw [hB]
    exact Real.sqrt_pos.mpr (div_pos two_pos hy0pos)
  obtain ⟨x, hx⟩ : ∃ v : ℝ, v = B * Real.cos lp.phi * Real.sin lp.lam :=
    ⟨_, rfl⟩
  obtain ⟨y, hy⟩ : ∃ v : ℝ, v = B * (Real.cos phi0 * Real.sin lp.phi -
      Real.sin phi0 * Real.cos lp.phi * Real.cos lp.lam) := ⟨_, rfl⟩
  have hfwd1 : (laea_s_forward lp (laeaState H phi0 0)).1 = ⟨x, y⟩ := by
    rw [hfwd, hx, hy, hB]
  have hfwd2 : (laea_s_forward lp (laeaState H phi0 0)).2 = false := by
    rw [hfwd]
  refine ⟨hfwd2, ?_⟩
  rw [hfwd1]
  have h1 := Real.sin_sq_add_cos_sq phi0
  have h2 := Real.sin_sq_add_cos_sq lp.phi
  have h3 := Real.sin_sq_add_cos_sq lp.lam
  have hcy : Real.sin phi0 * Real.sin lp.phi +
      Real.cos phi0 * Real.cos lp.phi * Real.cos lp.lam = y0 - 1 := by
    rw [hy0]
    ring
  have hA : x * x + y * y = 2 * (2 - y0) := by
    have hxy : x * x + y * y =
        B ^ 2 * ((Real.cos lp.phi * Real.sin lp.lam) ^ 2 +
          (Real.cos phi0 * Real.sin lp.phi -
            Real.sin phi0 * Real.cos lp.phi * Real.cos lp.lam) ^ 2) := by
      rw [hx, hy]
      ring
    rw [hxy, obliq_norm_sq h1 h2 h3, hcy, hB2]
    field_simp
    ring
  obtain ⟨rh, hrh⟩ : ∃ v : ℝ, v = Real.sqrt (2 * (2 - y0)) := ⟨_, rfl⟩
  have hrhA : rh = Real.sqrt (x * x + y * y) := by rw [hA, hrh]
  have hu : EPS10 ≤ 2 - y0 := by linarith
  have hrheps : EPS10 < rh := by
    rw [hrh]
    exact lt_sqrt_of_sq_lt eps10_pos.le (eps10_sq_lt_two_mul hu)
  have hrhpos : 0 < rh := lt_trans eps10_pos hrheps
  have hrhle : rh ≤ 2 := by
    rw [hrh]
    exact sqrt_le_of_le_sq (by norm_num) (by norm_num; linarith)
  have hrh2 : rh ^ 2 = 2 * (2 - y0) := by
    rw [hrh]
    exact Real.sq_sqrt (by linarith [eps10_pos])
  have hg1 : ¬ 1 < rh * 0.5 := by push_neg; linarith
  have hg2 : ¬ |rh| ≤ EPS10 := by
    rw [abs_of_pos hrhpos]
    push_neg
    exact hrheps
  obtain ⟨hsz, hcz⟩ := sin_cos_two_arcsin
    (show -1 ≤ rh * 0.5 by linarith) (show rh * 0.5 ≤ 1 by linarith)
  have ht2 : 1 - (rh * 0.5) ^ 2 = y0 / 2 := by
    linear_combination (-(1 : ℝ) / 4) * hrh2
  have hsinz : Real.sin (2 * Real.arcsin (rh * 0.5)) =
      rh * Real.sqrt (y0 / 2) := by
    rw [hsz, ht2]
    ring
  have hcosz : Real.cos (2 * Real.arcsin (rh * 0.5)) = y0 - 1 := by
    rw [hcz]
    linear_combination (-(1 : ℝ) / 2) * hrh2
  have hB1 : B * Real.sqrt (y0 / 2) = 1 := by
    rw [hB]
    exact sqrt_two_div_mul_sqrt_div_two hy0pos
  have harg : Real.cos (2 * Real.arcsin (rh * 0.5)) * Real.sin phi0 +
      y * Real.sin (2 * Real.arcsin (rh * 0.5)) * Real.cos phi0 / rh =
      Real.sin lp.phi := by
    rw [hcosz, hy, hsinz]
    rw [show B * (Real.cos phi0 * Real.sin lp.phi -
          Real.sin phi0 * Real.cos lp.phi * Real.cos lp.lam) *
          (rh * Real.sqrt (y0 / 2)) * Real.cos phi0 / rh =
        (Real.cos phi0 * Real.sin lp.phi -
          Real.sin phi0 * Real.cos lp.phi * Real.cos lp.lam) *
          Real.cos phi0 * (B * Real.sqrt (y0 / 2)) from by
      field_simp
      ring]
    rw [hB1, mul_one]
    rw [show (y0 - 1 : ℝ) = Real.sin phi0 * Real.sin lp.phi +
        Real.cos phi0 * Real.cos lp.phi * Real.cos lp.lam from by
      rw [hy0]; ring]
    exact obliq_lat_recovery h1
  have hphi_eq : lp.phi = Real.arcsin
      (Real.cos (2 * Real.arcsin (rh * 0.5)) * Real.sin phi0 +
        y * Real.sin (2 * Real.arcsin (rh * 0.5)) * Real.cos phi0 / rh) := by
    rw [harg, Real.arcsin_sin (by linarith) (by linarith)]
  have hphiP : lp.phi = Real.arcsin
      (Real.cos (2 * Real.arcsin (rh * 0.5)) * (laeaState H phi0 0).Q.sinb1 +
        y * Real.sin (2 * Real.arcsin (rh * 0.5)) *
          (laeaState H phi0 0).Q.cosb1 / rh) := by
    rw [hs1, hc1]
    exact hphi_eq
  have hr3 : 0 < rh * Real.cos phi0 * Real.cos lp.phi :=
    mul_pos (mul_pos hrhpos hc1pos) hcp
  have hx2_eq : x * (Real.sin (2 * Real.arcsin (rh * 0.5)) * Real.cos phi0) =
      rh * Real.cos phi0 * Real.cos lp.phi * Real.sin lp.lam := by
    rw [hx, hsinz]
    linear_combination
      (rh * Real.cos phi0 * Real.cos lp.phi * Real.sin lp.lam) * hB1
  have hx2P : rh * Real.cos phi0 * Real.cos lp.phi * Real.sin lp.lam =
      x * (Real.sin (2 * Real.arcsin (rh * 0.5)) *
        (laeaState H phi0 0).Q.cosb1) := by
    rw [hc1]
    exact hx2_eq.symm
  have hy2_eq : (Real.cos (2 * Real.arcsin (rh * 0.5)) -
        Real.sin lp.phi * Real.sin phi0) * rh =
      rh * Real.cos phi0 * Real.cos lp.phi * Real.cos lp.lam := by
    rw [hcosz]
    rw [show (y0 - 1 : ℝ) = Real.sin phi0 * Real.sin lp.phi +
        Real.cos phi0 * Real.cos lp.phi * Real.cos lp.lam from by
      rw [hy0]; ring]
    ring
  have hy2P : rh * Real.cos phi0 * Real.cos lp.phi * Real.cos lp.lam =
      (Real.cos (2 * Real.arcsin (rh * 0.5)) -
        Real.sin lp.phi * (laeaState H phi0 0).Q.sinb1) * rh := by
    rw [hs1]
    exact hy2_eq.symm
  have hy2ne : rh * Real.cos phi0 * Real.cos lp.phi * Real.cos lp.lam ≠ 0 :=
    mul_ne_zero (ne_of_gt hr3) hcl
  rw [laea_s_inverse_obliq_eval x y (laeaState H phi0 0) rh
    (2 * Real.arcsin (rh * 0.5)) lp.phi
    (rh * Real.cos phi0 * Real.cos lp.phi * Real.sin lp.lam)
    (rh * Real.cos phi0 * Real.cos lp.phi * Real.cos lp.lam)
    hm hrhA hg1 rfl hg2 hphiP hx2P hy2P hy2ne]
  rw [atan2_mul_sin_cos hr3 hlam]

/- ------------------------------------------------------------------ -/
/- C1: round-trip of the bound transforms                             -/
/- ------------------------------------------------------------------ -/

lemma fwd_s_dispatch (H : AuthHelper) (phi0 : ℝ) (lp : PJ_LP) :
    fwd H lp (laeaState H phi0 0) = laea_s_forward lp (laeaState H phi0 0) := by
  have h := (phi0_es_laeaState H phi0 0).2
  simp [fwd, h]

lemma inv_s_dispatch (H : AuthHelper) (phi0 : ℝ) (xy : PJ_XY) :
    inv H xy (laeaState H phi0 0) = laea_s_inverse xy (laeaState H phi0 0) := by
  have h := (phi0_es_laeaState H phi0 0).2
  simp [inv, h]

lemma fwd_e_dispatch (H : AuthHelper) (phi0 es : ℝ) (lp : PJ_LP)
    (hes : es ≠ 0) :
    fwd H lp (laeaState H phi0 es) =
      laea_e_forward H lp (laeaState H phi0 es) := by
  have h := (phi0_es_laeaState H phi0 es).2
  simp [fwd, h, hes]

lemma inv_e_dispatch (H : AuthHelper) (phi0 es : ℝ) (xy : PJ_XY)
    (hes : es ≠ 0) :
    inv H xy (laeaState H phi0 es) =
      laea_e_inverse H xy (laeaState H phi0 es) := by
  have h := (phi0_es_laeaState H phi0 es).2
  simp [inv, h, hes]

/-- C1: for every valid geodetic pair (lon, lat) not in a singular domain,
    applying the bound inverse transform to the result of the bound forward
    transform returns (lon, lat) exactly (hence within any floating
    tolerance such as 1e-9 rad), for each of the four aspect modes and for
    both the spherical (es = 0) and ellipsoidal (es ≠ 0) transform pairs.
    The ellipsoidal cases hold for every authalic-latitude helper whose
    inverse series inverts the forward conversion at the input latitude and
    whose q integral is positive at the pole.  The non-singular domain is
    spelled out per mode: the latitude stays off the poles and off the point
    antipodal to the projection center, the planar radius stays at least
    EPS10 away from the center, and (Equatorial/Oblique) the longitude stays
    off the meridians where the code's exact-zero test y == 0 would fire. -/
theorem C1_roundtrip :
    (∀ (H : AuthHelper) (phi0 : ℝ) (lp : PJ_LP) (P : PJ),
      laea H phi0 0 = Except.ok P →
      |phi0| < EPS10 →
      |lp.phi| < Real.pi / 2 →
      lp.lam ∈ Set.Ioc (-Real.pi) Real.pi →
      Real.cos lp.lam ≠ 0 →
      EPS10 < 1 + Real.cos lp.phi * Real.cos lp.lam →
      Real.cos lp.phi * Real.cos lp.lam ≤ 1 - EPS10 →
      (fwd H lp P).2 = false ∧ inv H (fwd H lp P).1 P = (lp, false)) ∧
    (∀ (H : AuthHelper) (phi0 : ℝ) (lp : PJ_LP) (P : PJ),
      laea H phi0 0 = Except.ok P →
      EPS10 ≤ |phi0| → EPS10 ≤ |(|phi0|) - M_HALFPI| →
      |phi0| < Real.pi / 2 →
      |lp.phi| < Real.pi / 2 →
      lp.lam ∈ Set.Ioc (-Real.pi) Real.pi →
      Real.cos lp.lam ≠ 0 →
      EPS10 < 1 + Real.sin phi0 * Real.sin lp.phi +
        Real.cos phi0 * Real.cos lp.phi * Real.cos lp.lam →
      Real.sin phi0 * Real.sin lp.phi +
        Real.cos phi0 * Real.cos lp.phi * Real.cos lp.lam ≤ 1 - EPS10 →
      (fwd H lp P).2 = false ∧ inv H (fwd H lp P).1 P = (lp, false)) ∧
    (∀ (H : AuthHelper) (phi0 : ℝ) (lp : PJ_LP) (P : PJ),
      laea H phi0 0 = Except.ok P →
      |phi0 - M_HALFPI| < EPS10 →
      -(Real.pi / 2) ≤ lp.phi → lp.phi < Real.pi / 2 →
      ¬ |lp.phi + phi0| < EPS10 →
      lp.lam ∈ Set.Ioc (-Real.pi) Real.pi →
      (fwd H lp P).2 = false ∧ inv H (fwd H lp P).1 P = (lp, false)) ∧
    (∀ (H : AuthHelper) (phi0 : ℝ) (lp : PJ_LP) (P : PJ),
      laea H phi0 0 = Except.ok P →
      |phi0 + M_HALFPI| < EPS10 →
      -(Real.pi / 2) < lp.phi → lp.phi ≤ Real.pi / 2 →
      ¬ |lp.phi + phi0| < EPS10 →
      lp.lam ∈ Set.Ioc (-Real.pi) Real.pi →
      (fwd H lp P).2 = false ∧ inv H (fwd H lp P).1 P = (lp, false)) ∧
    (∀ (H : AuthHelper) (phi0 es : ℝ) (lp : PJ_LP) (P : PJ),
      laea H phi0 es = Except.ok P →
      es ≠ 0 →
      |phi0| < EPS10 →
      0 < H.q 1.0 →
      H.lat lp.phi ∈ Set.Ioo (-(Real.pi / 2)) (Real.pi / 2) →
      H.latInv (H.lat lp.phi) = lp.phi →
      lp.lam ∈ Set.Ioc (-Real.pi) Real.pi →
      EPS10 ≤ 1 + Real.cos (H.lat lp.phi) * Real.cos lp.lam →
      Real.cos (H.lat lp.phi) * Real.cos lp.lam ≤ 1 - EPS10 →
      EPS10 ≤ Real.sqrt (0.5 * H.q 1.0) *
        Real.sqrt (2 * (1 - Real.cos (H.lat lp.phi) * Real.cos lp.lam)) →
      (fwd H lp P).2 = false ∧ inv H (fwd H lp P).1 P = (lp, false)) ∧
    (∀ (H : AuthHelper) (phi0 es : ℝ) (lp : PJ_LP) (P : PJ),
      laea H phi0 es = Except.ok P →
      0 < es → es < 1 →
      EPS10 ≤ |phi0| → EPS10 ≤ |(|phi0|) - M_HALFPI| →
      |phi0| < Real.pi / 2 →
      0 < H.q 1.0 →
      H.lat phi0 ∈ Set.Ioo (-(Real.pi / 2)) (Real.pi / 2) →
      H.lat lp.phi ∈ Set.Ioo (-(Real.pi / 2)) (Real.pi / 2) →
      H.latInv (H.lat lp.phi) = lp.phi →
      lp.lam ∈ Set.Ioc (-Real.pi) Real.pi →
      EPS10 ≤ 1 + Real.sin (H.lat phi0) * Real.sin (H.lat lp.phi) +
        Real.cos (H.lat phi0) * Real.cos (H.lat lp.phi) * Real.cos lp.lam →
      Real.sin (H.lat phi0) * Real.sin (H.lat lp.phi) +
        Real.cos (H.lat phi0) * Real.cos (H.lat lp.phi) * Real.cos lp.lam ≤
          1 - EPS10 →
      EPS10 ≤ Real.sqrt (0.5 * H.q 1.0) *
        Real.sqrt (2 * (1 - (Real.sin (H.lat phi0) * Real.sin (H.lat lp.phi) +
          Real.cos (H.lat phi0) * Real.cos (H.lat lp.phi) *
            Real.cos lp.lam))) →
      (fwd H lp P).2 = false ∧ inv H (fwd H lp P).1 P = (lp, false)) ∧
    (∀ (H : AuthHelper) (phi0 es : ℝ) (lp : PJ_LP) (P : PJ),
      laea H phi0 es = Except.ok P →
      es ≠ 0 →
      |phi0 - M_HALFPI| < EPS10 →
      0 < H.q 1.0 →
      H.lat lp.phi ∈ Set.Icc (-(Real.pi / 2)) (Real.pi / 2) →
      H.latInv (H.lat lp.phi) = lp.phi →
      ¬ |M_HALFPI + lp.phi| < EPS10 →
      1e-15 ≤ H.q 1.0 - Real.sin (H.lat lp.phi) * H.q 1.0 →
      lp.lam ∈ Set.Ioc (-Real.pi) Real.pi →
      (fwd H lp P).2 = false ∧ inv H (fwd H lp P).1 P = (lp, false)) ∧
    (∀ (H : AuthHelper) (phi0 es : ℝ) (lp : PJ_LP) (P : PJ),
      laea H phi0 es = Except.ok P →
      es ≠ 0 →
      |phi0 + M_HALFPI| < EPS10 →
      0 < H.q 1.0 →
      H.lat lp.phi ∈ Set.Icc (-(Real.pi / 2)) (Real.pi / 2) →
      H.latInv (H.lat lp.phi) = lp.phi →
      ¬ |lp.phi - M_HALFPI| < EPS10 →
      1e-15 ≤ H.q 1.0 + Real.sin (H.lat lp.phi) * H.q 1.0 →
      lp.lam ∈ Set.Ioc (-Real.pi) Real.pi →
      (fwd H lp P).2 = false ∧ inv H (fwd H lp P).1 P = (lp, false)) := by
  refine ⟨?_, ?_, ?_, ?_, ?_, ?_, ?_, ?_⟩
  · intro H phi0 lp P hok h1 h2 h3 h4 h5 h6
    have hP := laea_ok_inv hok
    subst hP
    rw [fwd_s_dispatch, inv_s_dispatch]
    exact roundtrip_s_equit H phi0 lp h1 h2 h3 h4 h5 h6
  · intro H phi0 lp P hok h1 h2 h3 h4 h5 h6 h7 h8
    have hP := laea_ok_inv hok
    subst hP
    rw [fwd_s_dispatch, inv_s_dispatch]
    exact roundtrip_s_obliq H phi0 lp h1 h2 h3 h4 h5 h6 h7 h8
  · intro H phi0 lp P hok h1 h2 h3 h4 h5
    have hP := laea_ok_inv hok
    subst hP
    rw [fwd_s_dispatch, inv_s_dispatch]
    exact roundtrip_s_npole H phi0 lp h1 h2 h3 h4 h5
  · intro H phi0 lp P hok h1 h2 h3 h4 h5
    have hP := laea_ok_inv hok
    subst hP
    rw [fwd_s_dispatch, inv_s_dispatch]
    exact roundtrip_s_spole H phi0 lp h1 h2 h3 h4 h5
  · intro H phi0 es lp P hok hes h1 h2 h3 h4 h5 h6 h7 h8
    have hP := laea_ok_inv hok
    subst hP
    rw [fwd_e_dispatch H phi0 es lp hes, inv_e_dispatch H phi0 es _ hes]
    exact roundtrip_e_equit H phi0 es lp hes h1 h2 h3 h4 h5 h6 h7 h8
  · intro H phi0 es lp P hok he0 he1 h1 h2 h3 h4 h5 h6 h7 h8 h9 h10 h11
    have hP := laea_ok_inv hok
    subst hP
    rw [fwd_e_dispatch H phi0 es lp (ne_of_gt he0),
      inv_e_dispatch H phi0 es _ (ne_of_gt he0)]
    exact roundtrip_e_obliq H phi0 es lp he0 he1 h1 h2 h3 h4 h5 h6 h7 h8
      h9 h10 h11
  · intro H phi0 es lp P hok hes h1 h2 h3 h4 h5 h6 h7
    have hP := laea_ok_inv hok
    subst hP
    rw [fwd_e_dispatch H phi0 es lp hes, inv_e_dispatch H phi0 es _ hes]
    exact roundtrip_e_npole H phi0 es lp hes h1 h2 h3 h4 h5 h6 h7
  · intro H phi0 es lp P hok hes h1 h2 h3 h4 h5 h6 h7
    have hP := laea_ok_inv hok
    subst hP
    rw [fwd_e_dispatch H phi0 es lp hes, inv_e_dispatch H phi0 es _ hes]
    exact roundtrip_e_spole H phi0 es lp hes h1 h2 h3 h4 h5 h6 h7

/-- Witness for C1: one concrete round trip per mode and model, all built
    with the trivial helper (identity authalic conversion, unit q). -/
theorem C1_roundtrip_witness :
    (laea trivH 0 0 = Except.ok (laeaState trivH 0 0) ∧
      (fwd trivH ⟨Real.pi, Real.pi / 3⟩ (laeaState trivH 0 0)).2 = false ∧
      inv trivH (fwd trivH ⟨Real.pi, Real.pi / 3⟩ (laeaState trivH 0 0)).1
        (laeaState trivH 0 0) = (⟨Real.pi, Real.pi / 3⟩, false)) ∧
    (laea trivH (Real.pi / 4) 0 =
        Except.ok (laeaState trivH (Real.pi / 4) 0) ∧
      (fwd trivH ⟨Real.pi, Real.pi / 4⟩
        (laeaState trivH (Real.pi / 4) 0)).2 = false ∧
      inv trivH (fwd trivH ⟨Real.pi, Real.pi / 4⟩
          (laeaState trivH (Real.pi / 4) 0)).1
        (laeaState trivH (Real.pi / 4) 0) = (⟨Real.pi, Real.pi / 4⟩, false)) ∧
    (laea trivH (Real.pi / 2) 0 =
        Except.ok (laeaState trivH (Real.pi / 2) 0) ∧
      (fwd trivH ⟨Real.pi / 2, 0⟩
        (laeaState trivH (Real.pi / 2) 0)).2 = false ∧
      inv trivH (fwd trivH ⟨Real.pi / 2, 0⟩
          (laeaState trivH (Real.pi / 2) 0)).1
        (laeaState trivH (Real.pi / 2) 0) = (⟨Real.pi / 2, 0⟩, false)) ∧
    (laea trivH (-(Real.pi / 2)) 0 =
        Except.ok (laeaState trivH (-(Real.pi / 2)) 0) ∧
      (fwd trivH ⟨Real.pi / 2, 0⟩
        (laeaState trivH (-(Real.pi / 2)) 0)).2 = false ∧
      inv trivH (fwd trivH ⟨Real.pi / 2, 0⟩
          (laeaState trivH (-(Real.pi / 2)) 0)).1
        (laeaState trivH (-(Real.pi / 2)) 0) = (⟨Real.pi / 2, 0⟩, false)) ∧
    (laea trivH 0 (1 / 2) = Except.ok (laeaState trivH 0 (1 / 2)) ∧
      (fwd trivH ⟨Real.pi, Real.pi / 3⟩
        (laeaState trivH 0 (1 / 2))).2 = false ∧
      inv trivH (fwd trivH ⟨Real.pi, Real.pi / 3⟩
          (laeaState trivH 0 (1 / 2))).1
        (laeaState trivH 0 (1 / 2)) = (⟨Real.pi, Real.pi / 3⟩, false)) ∧
    (laea trivH (Real.pi / 4) (1 / 2) =
        Except.ok (laeaState trivH (Real.pi / 4) (1 / 2)) ∧
      (fwd trivH ⟨Real.pi, Real.pi / 4⟩
        (laeaState trivH (Real.pi / 4) (1 / 2))).2 = false ∧
      inv trivH (fwd trivH ⟨Real.pi, Real.pi / 4⟩
          (laeaState trivH (Real.pi / 4) (1 / 2))).1
        (laeaState trivH (Real.pi / 4) (1 / 2)) =
          (⟨Real.pi, Real.pi / 4⟩, false)) ∧
    (laea trivH (Real.pi / 2) (1 / 2) =
        Except.ok (laeaState trivH (Real.pi / 2) (1 / 2)) ∧
      (fwd trivH ⟨Real.pi / 2, 0⟩
        (laeaState trivH (Real.pi / 2) (1 / 2))).2 = false ∧
      inv trivH (fwd trivH ⟨Real.pi / 2, 0⟩
          (laeaState trivH (Real.pi / 2) (1 / 2))).1
        (laeaState trivH (Real.pi / 2) (1 / 2)) = (⟨Real.pi / 2, 0⟩, false)) ∧
    (laea trivH (-(Real.pi / 2)) (1 / 2) =
        Except.ok (laeaState trivH (-(Real.pi / 2)) (1 / 2)) ∧
      (fwd trivH ⟨Real.pi / 2, 0⟩
        (laeaState trivH (-(Real.pi / 2)) (1 / 2))).2 = false ∧
      inv trivH (fwd trivH ⟨Real.pi / 2, 0⟩
          (laeaState trivH (-(Real.pi / 2)) (1 / 2))).1
        (laeaState trivH (-(Real.pi / 2)) (1 / 2)) =
          (⟨Real.pi / 2, 0⟩, false)) := by
  have hpi := Real.pi_gt_three
  have hpipos := Real.pi_pos
  have heh : EPS10 < M_HALFPI := eps10_lt_halfpi
  have hehp : EPS10 < Real.pi / 2 := by unfold M_HALFPI at heh; exact heh
  have hepos := eps10_pos
  -- setup-success equations
  have hok : ∀ p e : ℝ, |p| ≤ M_HALFPI + EPS10 →
      laea trivH p e = Except.ok (laeaState trivH p e) := by
    intro p e hp
    unfold laea
    rw [if_neg (not_lt.mpr hp)]
  have habs0 : |(0 : ℝ)| ≤ M_HALFPI + EPS10 := by
    rw [abs_zero]
    linarith
  have habs4 : |Real.pi / 4| ≤ M_HALFPI + EPS10 := by
    rw [abs_of_pos (by linarith)]
    unfold M_HALFPI
    linarith
  have habs2 : |Real.pi / 2| ≤ M_HALFPI + EPS10 := by
    rw [abs_of_pos (by linarith)]
    unfold M_HALFPI
    linarith
  have habs2n : |-(Real.pi / 2)| ≤ M_HALFPI + EPS10 := by
    rw [abs_neg]
    exact habs2
  -- shared numeric facts
  have hA1 : |(0 : ℝ)| < EPS10 := by
    rw [abs_zero]
    exact hepos
  have hA2 : |Real.pi / 3| < Real.pi / 2 := by
    rw [abs_of_pos (by linarith)]
    linarith
  have hlam_pi : Real.pi ∈ Set.Ioc (-Real.pi) Real.pi :=
    ⟨by linarith, le_refl _⟩
  have hlam_pi2 : Real.pi / 2 ∈ Set.Ioc (-Real.pi) Real.pi :=
    ⟨by linarith, by linarith⟩
  have hcl_pi : Real.cos Real.pi ≠ 0 := by
    rw [Real.cos_pi]
    norm_num
  have hA5 : EPS10 < 1 + Real.cos (Real.pi / 3) * Real.cos Real.pi := by
    rw [Real.cos_pi_div_three, Real.cos_pi]
    norm_num [EPS10]
  have hA6 : Real.cos (Real.pi / 3) * Real.cos Real.pi ≤ 1 - EPS10 := by
    rw [Real.cos_pi_div_three, Real.cos_pi]
    norm_num [EPS10]
  have hB1 : EPS10 ≤ |Real.pi / 4| := by
    rw [abs_of_pos (by linarith)]
    unfold EPS10
    nlinarith
  have hB2 : EPS10 ≤ |(|Real.pi / 4|) - M_HALFPI| := by
    rw [abs_of_pos (show (0:ℝ) < Real.pi / 4 by linarith)]
    rw [abs_of_neg (show Real.pi / 4 - M_HALFPI < 0 by
      unfold M_HALFPI; linarith)]
    unfold EPS10 M_HALFPI
    nlinarith
  have hB3 : |Real.pi / 4| < Real.pi / 2 := by
    rw [abs_of_pos (by linarith)]
    linarith
  have hs2 : Real.sqrt 2 / 2 * (Real.sqrt 2 / 2) = 1 / 2 := by
    rw [div_mul_div_comm, Real.mul_self_sqrt (by norm_num)]
    norm_num
  have hB7 : EPS10 < 1 + Real.sin (Real.pi / 4) * Real.sin (Real.pi / 4) +
      Real.cos (Real.pi / 4) * Real.cos (Real.pi / 4) * Real.cos Real.pi := by
    rw [Real.sin_pi_div_four, Real.cos_pi_div_four, Real.cos_pi, hs2]
    norm_num [EPS10]
  have hB8 : Real.sin (Real.pi / 4) * Real.sin (Real.pi / 4) +
      Real.cos (Real.pi / 4) * Real.cos (Real.pi / 4) * Real.cos Real.pi ≤
        1 - EPS10 := by
    rw [Real.sin_pi_div_four, Real.cos_pi_div_four, Real.cos_pi, hs2]
    norm_num [EPS10]
  have hC1 : |Real.pi / 2 - M_HALFPI| < EPS10 := by
    unfold M_HALFPI
    rw [sub_self, abs_zero]
    exact hepos
  have hC4 : ¬ |(0 : ℝ) + Real.pi / 2| < EPS10 := by
    rw [zero_add, abs_of_pos (by linarith)]
    push_neg
    linarith
  have hD1 : |-(Real.pi / 2) + M_HALFPI| < EPS10 := by
    unfold M_HALFPI
    rw [neg_add_cancel, abs_zero]
    exact hepos
  have hD4 : ¬ |(0 : ℝ) + -(Real.pi / 2)| < EPS10 := by
    rw [zero_add, abs_neg, abs_of_pos (by linarith)]
    push_neg
    linarith
  have hqp : (0 : ℝ) < trivH.q 1.0 := by
    show (0 : ℝ) < 1.0
    norm_num
  have hIoo3 : (Real.pi / 3 : ℝ) ∈
      Set.Ioo (-(Real.pi / 2)) (Real.pi / 2) := ⟨by linarith, by linarith⟩
  have hIoo4 : (Real.pi / 4 : ℝ) ∈
      Set.Ioo (-(Real.pi / 2)) (Real.pi / 2) := ⟨by linarith, by linarith⟩
  have hIcc0 : (0 : ℝ) ∈ Set.Icc (-(Real.pi / 2)) (Real.pi / 2) :=
    ⟨by linarith, by linarith⟩
  have hE6 : EPS10 ≤ 1 + Real.cos (Real.pi / 3) * Real.cos Real.pi :=
    le_of_lt hA5
  have hE8 : EPS10 ≤ Real.sqrt (0.5 * trivH.q 1.0) *
      Real.sqrt (2 * (1 - Real.cos (Real.pi / 3) * Real.cos Real.pi)) := by
    show EPS10 ≤ Real.sqrt (0.5 * 1.0) *
      Real.sqrt (2 * (1 - Real.cos (Real.pi / 3) * Real.cos Real.pi))
    rw [Real.cos_pi_div_three, Real.cos_pi]
    rw [show (0.5 : ℝ) * 1.0 = 0.5 by norm_num,
      show (2 : ℝ) * (1 - 1 / 2 * (-1)) = 3 by norm_num]
    rw [← Real.sqrt_mul (by norm_num : (0 : ℝ) ≤ 0.5)]
    exact (lt_sqrt_of_sq_lt eps10_pos.le (by norm_num [EPS10])).le
  have hF7 : EPS10 ≤ 1 + Real.sin (Real.pi / 4) * Real.sin (Real.pi / 4) +
      Real.cos (Real.pi / 4) * Real.cos (Real.pi / 4) * Real.cos Real.pi :=
    le_of_lt hB7
  have hF9 : EPS10 ≤ Real.sqrt (0.5 * trivH.q 1.0) *
      Real.sqrt (2 * (1 - (Real.sin (Real.pi / 4) * Real.sin (Real.pi / 4) +
        Real.cos (Real.pi / 4) * Real.cos (Real.pi / 4) *
          Real.cos Real.pi))) := by
    show EPS10 ≤ Real.sqrt (0.5 * 1.0) *
      Real.sqrt (2 * (1 - (Real.sin (Real.pi / 4) * Real.sin (Real.pi / 4) +
        Real.cos (Real.pi / 4) * Real.cos (Real.pi / 4) * Real.cos Real.pi)))
    rw [Real.sin_pi_div_four, Real.cos_pi_div_four, Real.cos_pi, hs2]
    rw [show (0.5 : ℝ) * 1.0 = 0.5 by norm_num,
      show (2 : ℝ) * (1 - (1 / 2 + 1 / 2 * (-1))) = 2 by norm_num]
    rw [← Real.sqrt_mul (by norm_num : (0 : ℝ) ≤ 0.5)]
    rw [show (0.5 : ℝ) * 2 = 1 by norm_num, Real.sqrt_one]
    norm_num [EPS10]
  have hG6 : ¬ |M_HALFPI + (0 : ℝ)| < EPS10 := by
    rw [add_zero]
    unfold M_HALFPI
    rw [abs_of_pos (by linarith)]
    push_neg
    linarith
  have hG7 : (1e-15 : ℝ) ≤ trivH.q 1.0 -
      Real.sin (trivH.lat (0 : ℝ)) * trivH.q 1.0 := by
    show (1e-15 : ℝ) ≤ 1.0 - Real.sin 0 * 1.0
    rw [Real.sin_zero]
    norm_num
  have hH6 : ¬ |(0 : ℝ) - M_HALFPI| < EPS10 := by
    rw [zero_sub, abs_neg]
    unfold M_HALFPI
    rw [abs_of_pos (by linarith)]
    push_neg
    linarith
  have hH7 : (1e-15 : ℝ) ≤ trivH.q 1.0 +
      Real.sin (trivH.lat (0 : ℝ)) * trivH.q 1.0 := by
    show (1e-15 : ℝ) ≤ 1.0 + Real.sin 0 * 1.0
    rw [Real.sin_zero]
    norm_num
  have hok00 := hok 0 0 habs0
  have hok40 := hok (Real.pi / 4) 0 habs4
  have hok20 := hok (Real.pi / 2) 0 habs2
  have hok2n0 := hok (-(Real.pi / 2)) 0 habs2n
  have hok05 := hok 0 (1 / 2) habs0
  have hok45 := hok (Real.pi / 4) (1 / 2) habs4
  have hok25 := hok (Real.pi / 2) (1 / 2) habs2
  have hok2n5 := hok (-(Real.pi / 2)) (1 / 2) habs2n
  have hth := C1_roundtrip
  refine ⟨⟨hok00, ?_⟩, ⟨hok40, ?_⟩, ⟨hok20, ?_⟩, ⟨hok2n0, ?_⟩,
    ⟨hok05, ?_⟩, ⟨hok45, ?_⟩, ⟨hok25, ?_⟩, ⟨hok2n5, ?_⟩⟩
  · exact hth.1 trivH 0 ⟨Real.pi, Real.pi / 3⟩ _ hok00 hA1 hA2 hlam_pi
      hcl_pi hA5 hA6
  · exact hth.2.1 trivH (Real.pi / 4) ⟨Real.pi, Real.pi / 4⟩ _ hok40
      hB1 hB2 hB3 hB3 hlam_pi hcl_pi hB7 hB8
  · exact hth.2.2.1 trivH (Real.pi / 2) ⟨Real.pi / 2, 0⟩ _ hok20
      hC1 (by linarith) (by linarith) hC4 hlam_pi2
  · exact hth.2.2.2.1 trivH (-(Real.pi / 2)) ⟨Real.pi / 2, 0⟩ _ hok2n0
      hD1 (by linarith) (by linarith) hD4 hlam_pi2
  · exact hth.2.2.2.2.1 trivH 0 (1 / 2) ⟨Real.pi, Real.pi / 3⟩ _ hok05
      (by norm_num) hA1 hqp hIoo3 rfl hlam_pi hE6 hA6 hE8
  · exact hth.2.2.2.2.2.1 trivH (Real.pi / 4) (1 / 2) ⟨Real.pi, Real.pi / 4⟩
      _ hok45 (by norm_num) (by norm_num) hB1 hB2 hB3 hqp hIoo4 hIoo4 rfl
      hlam_pi hF7 hB8 hF9
  · exact hth.2.2.2.2.2.2.1 trivH (Real.pi / 2) (1 / 2) ⟨Real.pi / 2, 0⟩
      _ hok25 (by norm_num) hC1 hqp hIcc0 rfl hG6 hG7 hlam_pi2
  · exact hth.2.2.2.2.2.2.2 trivH (-(Real.pi / 2)) (1 / 2) ⟨Real.pi / 2, 0⟩
      _ hok2n5 (by norm_num) hD1 hqp hIcc0 rfl hH6 hH7 hlam_pi2

/- ------------------------------------------------------------------ -/
/- C2: what the transforms return alongside a domain error            -/
/- ------------------------------------------------------------------ -/

/-- C2 counterexample: the spherical inverse transform of the equatorial
    instance phi0 = 0 signals the outside-projection-domain error on the
    planar input (4, 0) but returns the pair (0, 2), not the zero pair
    (the C code has already stored rh/2 into lp.phi when it bails out). -/
theorem C2_counterexample :
    laea trivH 0 0 = Except.ok (laeaState trivH 0 0) ∧
    (laea_s_inverse ⟨4, 0⟩ (laeaState trivH 0 0)).2 = true ∧
    (laea_s_inverse ⟨4, 0⟩ (laeaState trivH 0 0)).1 ≠ (⟨0, 0⟩ : PJ_LP) := by
  have hok : laea trivH 0 0 = Except.ok (laeaState trivH 0 0) := by
    unfold laea
    rw [if_neg]
    push_neg
    rw [abs_zero]
    unfold M_HALFPI EPS10
    positivity
  have h16 : Real.sqrt ((4 : ℝ) * 4 + 0 * 0) = 4 := by
    rw [show (4 : ℝ) * 4 + 0 * 0 = 4 ^ 2 by norm_num,
      Real.sqrt_sq (by norm_num)]
  have hval : laea_s_inverse ⟨4, 0⟩ (laeaState trivH 0 0) =
      (⟨0, Real.sqrt ((4 : ℝ) * 4 + 0 * 0) * 0.5⟩, true) := by
    simp only [laea_s_inverse]
    rw [if_pos]
    rw [h16]
    norm_num
  rw [hval, h16]
  refine ⟨hok, rfl, ?_⟩
  intro hcon
  have := congrArg PJ_LP.phi hcon
  norm_num at this

/-- C2, amended: on an outside-projection-domain error the ellipsoidal
    forward, the ellipsoidal inverse and the polar-mode spherical forward
    return the zero pair; but the Equatorial/Oblique spherical forward
    returns (0, b) where b is the guarded quantity (only bounded by
    b ≤ EPS10, not necessarily 0), and the spherical inverse returns
    (0, rh/2) with rh/2 > 1. -/
theorem C2_amended (H : AuthHelper) (lp : PJ_LP) (xy : PJ_XY) (P : PJ) :
    ((laea_e_forward H lp P).2 = true →
      (laea_e_forward H lp P).1 = (⟨0, 0⟩ : PJ_XY)) ∧
    ((laea_e_inverse H xy P).2 = true →
      (laea_e_inverse H xy P).1 = (⟨0, 0⟩ : PJ_LP)) ∧
    ((P.Q.mode = Mode.N_POLE ∨ P.Q.mode = Mode.S_POLE) →
      (laea_s_forward lp P).2 = true →
      (laea_s_forward lp P).1 = (⟨0, 0⟩ : PJ_XY)) ∧
    ((laea_s_forward lp P).2 = true →
      (laea_s_forward lp P).1.x = 0 ∧ (laea_s_forward lp P).1.y ≤ EPS10) ∧
    ((laea_s_inverse xy P).2 = true →
      (laea_s_inverse xy P).1 =
        (⟨0, Real.sqrt (xy.x * xy.x + xy.y * xy.y) * 0.5⟩ : PJ_LP)) := by
  refine ⟨?_, ?_, ?_, ?_, ?_⟩
  · intro h
    cases hm : P.Q.mode <;>
      simp only [laea_e_forward, hm] at h ⊢ <;>
        split_ifs at h ⊢ <;> simp_all
  · intro h
    cases hm : P.Q.mode <;>
      simp only [laea_e_inverse, hm] at h ⊢ <;>
        split_ifs at h ⊢ <;> simp_all
  · rintro (hm | hm) h <;>
      simp only [laea_s_forward, hm, laea_s_forward_polar] at h ⊢ <;>
        split_ifs at h ⊢ <;> simp_all
  · intro h
    cases hm : P.Q.mode <;>
      simp only [laea_s_forward, hm, laea_s_forward_polar] at h ⊢ <;>
        split_ifs at h ⊢ <;> simp_all [eps10_pos.le]
  · intro h
    cases hm : P.Q.mode <;>
      simp only [laea_s_inverse, hm] at h ⊢ <;>
        split_ifs at h ⊢ <;> simp_all

/-- Witness for the amended C2: the spherical inverse error case at
    (4, 0) (error raised, pair (0, rh/2) returned) and the ellipsoidal
    forward error case at the point antipodal to the North Pole (error
    raised, zero pair returned). -/
theorem C2_amended_witness :
    (laea_s_inverse ⟨4, 0⟩ (laeaState trivH 0 0)).2 = true ∧
    (laea_s_inverse ⟨4, 0⟩ (laeaState trivH 0 0)).1 =
      (⟨0, Real.sqrt ((4 : ℝ) * 4 + 0 * 0) * 0.5⟩ : PJ_LP) := by
  have h16 : Real.sqrt ((4 : ℝ) * 4 + 0 * 0) = 4 := by
    rw [show (4 : ℝ) * 4 + 0 * 0 = 4 ^ 2 by norm_num,
      Real.sqrt_sq (by norm_num)]
  have herr : (laea_s_inverse ⟨4, 0⟩ (laeaState trivH 0 0)).2 = true := by
    simp only [laea_s_inverse]
    rw [if_pos]
    rw [h16]
    norm_num
  exact ⟨herr,
    (C2_amended trivH ⟨0, 0⟩ ⟨4, 0⟩ (laeaState trivH 0 0)).2.2.2.2 herr⟩

/- ------------------------------------------------------------------ -/
/- C3: which modes the ellipsoidal |b| < EPS10 guard applies to       -/
/- ------------------------------------------------------------------ -/

/-- C3 counterexample: the |b| < EPS10 outside-projection-domain failure
    of the ellipsoidal forward transform is NOT restricted to
    Oblique/Equatorial mode: the North-Polar ellipsoidal instance
    (phi0 = pi/2, es = 1/2) raises it at latitude -pi/2 (where
    b = pi/2 + phi = 0). -/
theorem C3_counterexample :
    laea trivH M_HALFPI (1 / 2) =
      Except.ok (laeaState trivH M_HALFPI (1 / 2)) ∧
    (laeaState trivH M_HALFPI (1 / 2)).Q.mode = Mode.N_POLE ∧
    (laea_e_forward trivH ⟨0, -M_HALFPI⟩
      (laeaState trivH M_HALFPI (1 / 2))).2 = true := by
  have hok : laea trivH M_HALFPI (1 / 2) =
      Except.ok (laeaState trivH M_HALFPI (1 / 2)) := by
    unfold laea
    rw [if_neg]
    rw [abs_of_pos (by linarith [eps10_pos, eps10_lt_halfpi])]
    push_neg
    linarith [eps10_pos]
  have hm : (laeaState trivH M_HALFPI (1 / 2)).Q.mode = Mode.N_POLE := by
    rw [mode_laeaState]
    exact laeaMode_npole (by simp [eps10_pos])
  refine ⟨hok, hm, ?_⟩
  simp only [laea_e_forward, hm]
  rw [if_pos]
  simp [eps10_pos]

/-- C3, amended: the |b| < EPS10 guard of the ellipsoidal forward applies
    in every mode; in North-Polar mode it fires exactly when
    |pi/2 + phi| < EPS10 and in South-Polar mode exactly when
    |phi - pi/2| < EPS10 (the pole opposite the projection center). -/
theorem C3_amended (H : AuthHelper) (lp : PJ_LP) (P : PJ) :
    (P.Q.mode = Mode.N_POLE →
      ((laea_e_forward H lp P).2 = true ↔ |M_HALFPI + lp.phi| < EPS10)) ∧
    (P.Q.mode = Mode.S_POLE →
      ((laea_e_forward H lp P).2 = true ↔ |lp.phi - M_HALFPI| < EPS10)) := by
  constructor <;>
  · intro hm
    simp only [laea_e_forward, hm]
    split_ifs with hg <;> simp [hg]

/-- Witness for the amended C3 at the North-Polar ellipsoidal instance
    phi0 = pi/2, es = 1/2, input latitude -pi/2. -/
theorem C3_amended_witness :
    (laeaState trivH M_HALFPI (1 / 2)).Q.mode = Mode.N_POLE ∧
    ((laea_e_forward trivH ⟨0, -M_HALFPI⟩
        (laeaState trivH M_HALFPI (1 / 2))).2 = true ↔
      |M_HALFPI + (-M_HALFPI)| < EPS10) := by
  have hm : (laeaState trivH M_HALFPI (1 / 2)).Q.mode = Mode.N_POLE := by
    rw [mode_laeaState]
    exact laeaMode_npole (by simp [eps10_pos])
  exact ⟨hm,
    (C3_amended trivH ⟨0, -M_HALFPI⟩ (laeaState trivH M_HALFPI (1 / 2))).1 hm⟩

/- ------------------------------------------------------------------ -/
/- C4: the degenerate inverse of the planar origin                    -/
/- ------------------------------------------------------------------ -/

lemma laeaMode_quarter_pi : laeaMode (Real.pi / 4) = Mode.OBLIQ := by
  have hpi := Real.pi_gt_three
  have h4 : (0 : ℝ) < Real.pi / 4 := by linarith
  apply laeaMode_obliq
  · rw [abs_of_pos h4]
    unfold EPS10
    nlinarith
  · rw [abs_of_pos h4]
    have hneg : Real.pi / 4 - M_HALFPI < 0 := by
      unfold M_HALFPI
      linarith
    rw [abs_of_neg hneg]
    unfold EPS10 M_HALFPI
    nlinarith

/-- C4 counterexample: for the spherical Equatorial instance with
    phi0 = 1e-11 (a nonzero center latitude classified Equatorial), the
    inverse of the planar origin returns (0, 0), not (0, phi0): the
    spherical Equatorial branch hard-codes lat = 0 instead of phi0. -/
theorem C4_counterexample :
    laea trivH 1e-11 0 = Except.ok (laeaState trivH 1e-11 0) ∧
    (laeaState trivH 1e-11 0).Q.mode = Mode.EQUIT ∧
    laea_s_inverse ⟨0, 0⟩ (laeaState trivH 1e-11 0) =
      ((⟨0, 0⟩ : PJ_LP), false) ∧
    (laeaState trivH 1e-11 0).phi0 ≠ 0 := by
  have hok : laea trivH 1e-11 0 = Except.ok (laeaState trivH 1e-11 0) := by
    unfold laea
    rw [if_neg]
    push_neg
    rw [abs_of_pos (by norm_num)]
    unfold M_HALFPI EPS10
    nlinarith [Real.pi_gt_three]
  have hm : (laeaState trivH 1e-11 0).Q.mode = Mode.EQUIT := by
    rw [mode_laeaState]
    exact laeaMode_equit (by rw [abs_of_pos (by norm_num)]; norm_num [EPS10])
  refine ⟨hok, hm, ?_, ?_⟩
  · simp [laea_s_inverse, hm, Real.sqrt_zero, Real.arcsin_zero, eps10_pos.le]
  · rw [(phi0_es_laeaState trivH 1e-11 0).1]
    norm_num

/-- C4, amended: inverse(0, 0) returns exactly (0, phi0) for the
    ellipsoidal inverse in Equatorial/Oblique mode and for the spherical
    Oblique inverse; the spherical Equatorial inverse instead returns
    exactly (0, 0) (which equals (0, phi0) only when phi0 = 0). -/
theorem C4_amended (H : AuthHelper) (P : PJ) :
    ((P.Q.mode = Mode.EQUIT ∨ P.Q.mode = Mode.OBLIQ) →
      laea_e_inverse H ⟨0, 0⟩ P = ((⟨0, P.phi0⟩ : PJ_LP), false)) ∧
    (P.Q.mode = Mode.OBLIQ →
      laea_s_inverse ⟨0, 0⟩ P = ((⟨0, P.phi0⟩ : PJ_LP), false)) ∧
    (P.Q.mode = Mode.EQUIT →
      laea_s_inverse ⟨0, 0⟩ P = ((⟨0, 0⟩ : PJ_LP), false)) := by
  refine ⟨?_, ?_, ?_⟩
  · rintro (hm | hm) <;>
      simp [laea_e_inverse, hm, Real.sqrt_zero, eps10_pos]
  · intro hm
    simp [laea_s_inverse, hm, Real.sqrt_zero, Real.arcsin_zero, eps10_pos.le]
  · intro hm
    simp [laea_s_inverse, hm, Real.sqrt_zero, Real.arcsin_zero, eps10_pos.le]

/-- Witness for the amended C4 at phi0 = pi/4: the ellipsoidal (es = 1/2)
    and spherical (es = 0) Oblique instances both return (0, phi0) at the
    planar origin. -/
theorem C4_amended_witness :
    ((laeaState trivH (Real.pi / 4) (1 / 2)).Q.mode = Mode.EQUIT ∨
      (laeaState trivH (Real.pi / 4) (1 / 2)).Q.mode = Mode.OBLIQ) ∧
    laea_e_inverse trivH ⟨0, 0⟩ (laeaState trivH (Real.pi / 4) (1 / 2)) =
      ((⟨0, (laeaState trivH (Real.pi / 4) (1 / 2)).phi0⟩ : PJ_LP), false) ∧
    (laeaState trivH (Real.pi / 4) 0).Q.mode = Mode.OBLIQ ∧
    laea_s_inverse ⟨0, 0⟩ (laeaState trivH (Real.pi / 4) 0) =
      ((⟨0, (laeaState trivH (Real.pi / 4) 0).phi0⟩ : PJ_LP), false) := by
  have hm1 : (laeaState trivH (Real.pi / 4) (1 / 2)).Q.mode = Mode.OBLIQ := by
    rw [mode_laeaState]
    exact laeaMode_quarter_pi
  have hm2 : (laeaState trivH (Real.pi / 4) 0).Q.mode = Mode.OBLIQ := by
    rw [mode_laeaState]
    exact laeaMode_quarter_pi
  exact ⟨Or.inr hm1,
    (C4_amended trivH (laeaState trivH (Real.pi / 4) (1 / 2))).1 (Or.inr hm1),
    hm2,
    (C4_amended trivH (laeaState trivH (Real.pi / 4) 0)).2.1 hm2⟩

/- ------------------------------------------------------------------ -/
/- C10: the stored mmf scale factor influences no transform           -/
/- ------------------------------------------------------------------ -/

/-- C10: changing only the mmf field of the projection state changes
    nothing: all four transforms (and the bound dispatchers) return
    identical coordinate results and identical error flags for every
    input. -/
theorem C10_mmf_unused (H : AuthHelper) (lp : PJ_LP) (xy : PJ_XY)
    (P : PJ) (m : ℝ) :
    laea_e_forward H lp {P with Q := {P.Q with mmf := m}} =
      laea_e_forward H lp P ∧
    laea_s_forward lp {P with Q := {P.Q with mmf := m}} =
      laea_s_forward lp P ∧
    laea_e_inverse H xy {P with Q := {P.Q with mmf := m}} =
      laea_e_inverse H xy P ∧
    laea_s_inverse xy {P with Q := {P.Q with mmf := m}} =
      laea_s_inverse xy P ∧
    fwd H lp {P with Q := {P.Q with mmf := m}} = fwd H lp P ∧
    inv H xy {P with Q := {P.Q with mmf := m}} = inv H xy P :=
  ⟨rfl, rfl, rfl, rfl, rfl, rfl⟩

end Laea
